import Mathlib

/-!
# PhysicalLayout toolkit: embedding of `PhysicalLayoutToolkit.cpp`

A shallow embedding of the state-carrying parts of `FPhysicalLayoutToolkit`
(reference-mesh percentages, weighted mesh selection, layout-mode switching,
baking) together with theorems about them.

Conventions of the embedding:

* `float` values are exact rationals (`ℚ`); `int32` values are integers (`ℤ`),
  wrapped to 32 bits where the source adds two of them.
* `TSharedPtr<FReferenceMesh>` is an address (`Ptr`); the objects live in
  `Toolkit.Objects`, so two list entries holding the same address alias the
  same object, exactly as in the source.
* Calls made on objects outside the toolkit (`EdMode`, `GEditor`, the mesh
  merge utilities) are recorded, in order, in `Toolkit.Calls`.
* Random draws are explicit: every `FMath::FRand()` consumed by a function is a
  field of `FRandomDraws`, and the integer draw `FMath::RandRange(int, int)` is
  an oracle field.
* An out-of-range `TArray::operator[]` and an integer division by zero make the
  embedded function return `none`.
-/

namespace PhysicalLayout

/-! ## Engine value types -/

/-- Engine vector `FVector` with its three `float` components. -/
structure FVector where
  X : ℚ
  Y : ℚ
  Z : ℚ
  deriving DecidableEq, Repr

/-- Engine rotator `FRotator`; the constructor order is `(Pitch, Yaw, Roll)`. -/
structure FRotator where
  Pitch : ℚ
  Yaw : ℚ
  Roll : ℚ
  deriving DecidableEq, Repr

/-- Engine `FRotator::Euler()`: the vector `(Roll, Pitch, Yaw)`. -/
def FRotator.Euler (r : FRotator) : FVector := ⟨r.Roll, r.Pitch, r.Yaw⟩

/-- Engine `FVector::OneVector * s`. -/
def FVector.OneVectorTimes (s : ℚ) : FVector := ⟨1 * s, 1 * s, 1 * s⟩

/-- Engine `FVector::Size()` is `Sqrt(X*X + Y*Y + Z*Z)`; the square root is the
parameter `Sqrt`. -/
def FVector.Size (Sqrt : ℚ → ℚ) (v : FVector) : ℚ :=
  Sqrt (v.X * v.X + v.Y * v.Y + v.Z * v.Z)

/-- The object behind a `UStaticMesh*`: its identity, the pending-kill flag
read by `IsValid`, and the radius `GetBounds().GetSphere().W`. -/
structure UStaticMesh where
  Id : ℕ
  bPendingKill : Bool
  SphereRadius : ℚ
  deriving DecidableEq, Repr

/-- Engine `IsValid(const UObject*)`: non-null and not pending kill. A
`UStaticMesh*` is `Option UStaticMesh`, `none` being `nullptr`. -/
def IsValid : Option UStaticMesh → Bool
  | none => false
  | some m => !m.bPendingKill

/-- Engine `FMath::Clamp(X, Min, Max)`. -/
def Clamp (X Min Max : ℚ) : ℚ :=
  if X < Min then Min else if X < Max then X else Max

/-- Conversion of a `float` to `int` in C++: truncation toward zero. -/
def TruncToInt (q : ℚ) : ℤ :=
  if 0 ≤ q then ⌊q⌋ else ⌈q⌉

/-- Engine `FMath::FRandRange(InMin, InMax)`, which is
`InMin + (InMax - InMin) * FRand()`; `t` is the value of `FRand()`. -/
def FRandRange (InMin InMax t : ℚ) : ℚ :=
  InMin + (InMax - InMin) * t

/-- Engine `FMath::RandPointInBox(FBox(Min, Max))`: one `FRandRange` per axis;
`t` holds the three `FRand()` values. -/
def RandPointInBox (Min Max t : FVector) : FVector :=
  ⟨FRandRange Min.X Max.X t.X, FRandRange Min.Y Max.Y t.Y, FRandRange Min.Z Max.Z t.Z⟩

/-- Wrap an integer to the range of `int32` (two's complement). -/
def wrap32 (i : ℤ) : ℤ :=
  (i + 2147483648) % 4294967296 - 2147483648

/-- `TArray::operator[]` with an `int32` index: `none` when out of range. -/
def TArrayAt {α : Type} (a : List α) (i : ℤ) : Option α :=
  if 0 ≤ i then a[i.toNat]? else none

/-! ## Toolkit data -/

/-- Address of a heap object held through a `TSharedPtr`. -/
abbrev Ptr := ℕ

/-- The fields of `FReferenceMesh` that the toolkit reads and writes. -/
structure FReferenceMesh where
  StaticMeshPath : String
  StaticMesh : Option UStaticMesh
  Percent : ℚ
  bIsAdjusting : Bool
  deriving DecidableEq, Repr

/-- The four `FString` constants of `ELayoutMode`; their values are declared in
a header outside the translated file and are taken as a parameter. -/
structure LayoutModeNames where
  Select : String
  PaintSelect : String
  Transform : String
  Paint : String
  deriving DecidableEq, Repr

/-- What the attached editor mode answers to the two queries of
`BakeToInstanceMesh`; components are named by numbers. -/
structure FPhysicalLayoutMode where
  SelectedPrimitives : List ℕ
  SpawnedComponents : List ℕ
  deriving DecidableEq, Repr

/-- A call the toolkit makes on an object it does not own. -/
inductive Call where
  | OnLayoutModeChange (InLayoutMode : String)
  | RegisterBrush
  | UnregisterBrush
  | GetSelectedPrimitives
  | GetSpawnedComponents
  | BeginTransaction
  | GetWorld
  | MergeComponentsToInstances (Components : List ℕ)
  | EndTransaction
  | DestroyActors (BakeSelected : Bool)
  deriving DecidableEq, Repr

/-- The state of `FPhysicalLayoutToolkit` (member fields), the heap of
reference-mesh objects, and the record of outgoing calls. -/
structure Toolkit where
  bIsPercentRelative : Bool
  bUseSelected : Bool
  bEnableGravity : Bool
  bMinScaleLock : Bool
  bMaxScaleLock : Bool
  CurrentLayoutMode : String
  LastLayoutMode : String
  LayoutModes : List String
  LayoutModeIndex : ℤ
  ReferenceMeshes : List Ptr
  Objects : Ptr → FReferenceMesh
  NextPtr : Ptr
  SelectedMeshIndex : ℤ
  PickedMesh : Option UStaticMesh
  fMinDistance : ℚ
  MinPositionRandom : FVector
  MaxPositionRandom : FVector
  MinRotateRandom : FRotator
  MaxRotateRandom : FRotator
  MinScaleRandom : FVector
  MaxScaleRandom : FVector
  PositionRandom : FVector
  RotateRandom : FRotator
  ScaleRandom : FVector
  EdMode : Option FPhysicalLayoutMode
  Calls : List Call

/-- The random values one call of `SetRandomMesh` consumes. `Roll` is the
`FRand()` behind `FRandRange(0.0f, 100.0f)`, `RandRange` answers the integer
draw `FMath::RandRange(Min, Max)`, the remaining fields are the `FRand()`
values of the position, rotation and scale draws. -/
structure FRandomDraws where
  Roll : ℚ
  RandRange : ℤ → ℤ → ℤ
  Position : FVector
  Rotation : FVector
  UniformScale : ℚ
  Scale : FVector

/-- A value `FMath::FRand()` can return: a fraction in `[0, 1]`. -/
def UnitFraction (t : ℚ) : Prop := 0 ≤ t ∧ t ≤ 1

/-- Three values of `FMath::FRand()`, one per axis. -/
def FVector.UnitFractions (v : FVector) : Prop :=
  UnitFraction v.X ∧ UnitFraction v.Y ∧ UnitFraction v.Z

/-- The engine contract of the draws: `FRand()` lies in `[0, 1]` and
`RandRange(Min, Max)` lies in `[Min, Max]`. -/
structure FRandomDraws.Valid (g : FRandomDraws) : Prop where
  roll : UnitFraction g.Roll
  range_ge : ∀ lo hi : ℤ, lo ≤ hi → lo ≤ g.RandRange lo hi
  range_le : ∀ lo hi : ℤ, lo ≤ hi → g.RandRange lo hi ≤ hi
  position : g.Position.UnitFractions
  rotation : g.Rotation.UnitFractions
  uniformScale : UnitFraction g.UniformScale
  scale : g.Scale.UnitFractions

/-! ## Mesh selection -/

/-- The predicate of `FilterByPredicate` in `SetRandomMesh`:
`IsValid(StaticMesh) && Percent >= Rand`. -/
def Eligible (s : Toolkit) (Rand : ℤ) (p : Ptr) : Bool :=
  IsValid (s.Objects p).StaticMesh && decide ((s.Objects p).Percent ≥ (Rand : ℚ))

/-- The tail of `SetRandomMesh` (source lines 1216-1227): the position,
rotation and scale rolls. -/
def RollTransform (s : Toolkit) (g : FRandomDraws) : Toolkit :=
  let RandRot := RandPointInBox s.MinRotateRandom.Euler s.MaxRotateRandom.Euler g.Rotation
  { s with
    PositionRandom := RandPointInBox s.MinPositionRandom s.MaxPositionRandom g.Position
    RotateRandom := ⟨RandRot.X, RandRot.Y, RandRot.Z⟩
    ScaleRandom :=
      if s.bMinScaleLock && s.bMaxScaleLock then
        FVector.OneVectorTimes (FRandRange s.MinScaleRandom.X s.MaxScaleRandom.X g.UniformScale)
      else
        RandPointInBox s.MinScaleRandom s.MaxScaleRandom g.Scale }

/-- The method `FPhysicalLayoutToolkit::SetRandomMesh`. -/
def SetRandomMesh (s : Toolkit) (g : FRandomDraws) : Option Toolkit :=
  if s.bUseSelected then
    if s.SelectedMeshIndex ≥ 0 then
      match TArrayAt s.ReferenceMeshes s.SelectedMeshIndex with
      | some p => some (RollTransform { s with PickedMesh := (s.Objects p).StaticMesh } g)
      | none => none
    else
      some (RollTransform s g)
  else
    let Meshes := s.ReferenceMeshes
    let Rand : ℤ := TruncToInt (FRandRange 0 100 g.Roll)
    let PickedMeshes := Meshes.filter (Eligible s Rand)
    if PickedMeshes.length = 0 then
      some s
    else
      match TArrayAt PickedMeshes (g.RandRange 0 ((PickedMeshes.length : ℤ) - 1)) with
      | some p => some (RollTransform { s with PickedMesh := (s.Objects p).StaticMesh } g)
      | none => none

/-- The method `FPhysicalLayoutToolkit::GetRandomMesh`. -/
def GetRandomMesh (s : Toolkit) : Option UStaticMesh := s.PickedMesh

/-- The method `FPhysicalLayoutToolkit::GetMinDistance`; `Sqrt` is the engine
square root used by `FVector::Size`. -/
def GetMinDistance (Sqrt : ℚ → ℚ) (s : Toolkit) : ℚ :=
  match GetRandomMesh s with
  | some m => s.fMinDistance * s.ScaleRandom.Size Sqrt * m.SphereRadius
  | none => s.fMinDistance * s.ScaleRandom.Size Sqrt

/-! ## The chance slider -/

/-- The loop of the slider handler (source lines 223-241) over the remaining
entries of `ReferenceMeshes`: every entry other than `InItem` receives the
running `delta`, passes on what falls outside `[0, 100)` and is clamped. The
call `RefSlider->SetValue` only stores the displayed value of another widget
and the locals `sum` and `c` are never read; neither is part of the state. -/
def Redistribute (InItem : Ptr) :
    List Ptr → (Ptr → FReferenceMesh) → ℚ → (Ptr → FReferenceMesh) × ℚ
  | [], Objects, delta => (Objects, delta)
  | RefMesh :: rest, Objects, delta =>
    if RefMesh ≠ InItem then
      let o1 : FReferenceMesh := { Objects RefMesh with bIsAdjusting := true }
      let o2 : FReferenceMesh := { o1 with Percent := o1.Percent + delta }
      let delta1 : ℚ :=
        if o2.Percent < 0 then o2.Percent
        else if o2.Percent ≥ 100 then o2.Percent - 100 else 0
      let o3 : FReferenceMesh := { o2 with Percent := Clamp o2.Percent 0 100 }
      let o4 : FReferenceMesh := { o3 with bIsAdjusting := false }
      Redistribute InItem rest (Function.update Objects RefMesh o4) delta1
    else
      Redistribute InItem rest Objects delta

/-- The `OnValueChanged` handler of the chance slider of the row of `InItem`
(source lines 208-245). -/
def SliderOnValueChanged (s : Toolkit) (InItem : Ptr) (InValue : ℚ)
    (g : FRandomDraws) : Option Toolkit :=
  let delta := (s.Objects InItem).Percent - InValue
  let o : FReferenceMesh := { s.Objects InItem with Percent := InValue }
  let s1 : Toolkit := { s with Objects := Function.update s.Objects InItem o }
  if s1.bIsPercentRelative then
    if (s1.Objects InItem).bIsAdjusting then
      some s1
    else if s1.ReferenceMeshes.length > 1 then
      SetRandomMesh
        { s1 with Objects := (Redistribute InItem s1.ReferenceMeshes s1.Objects delta).1 } g
    else
      SetRandomMesh s1 g
  else
    SetRandomMesh s1 g

/-- Sum of the percents of the listed reference meshes. -/
def TotalPercent (s : Toolkit) : ℚ :=
  (s.ReferenceMeshes.map (fun p => (s.Objects p).Percent)).sum

/-! ## Layout modes -/

/-- The method `FPhysicalLayoutToolkit::GetCurrentLayoutMode`. -/
def GetCurrentLayoutMode (s : Toolkit) : String := s.CurrentLayoutMode

/-- Append calls to the record when an editor mode is attached (the source's
`if (EdMode) ...`). -/
def callEdMode (s : Toolkit) (cs : List Call) : Toolkit :=
  match s.EdMode with
  | some _ => { s with Calls := s.Calls ++ cs }
  | none => s

/-- The method `FPhysicalLayoutToolkit::ChangeMode(FString)`. -/
def ChangeMode (s : Toolkit) (InLayoutMode : String) : Toolkit :=
  let s1 : Toolkit := { s with LastLayoutMode := GetCurrentLayoutMode s }
  let s2 : Toolkit := { s1 with CurrentLayoutMode := InLayoutMode }
  callEdMode s2 [Call.OnLayoutModeChange InLayoutMode]

/-- The C++ operator `%` on `int`: remainder of the division truncated toward
zero; `none` for a zero divisor. -/
def cppMod (a b : ℤ) : Option ℤ :=
  if b = 0 then none else some (Int.tmod a b)

/-- The method `FPhysicalLayoutToolkit::ChangeMode(int)`. -/
def ChangeModeInt (s : Toolkit) (InDirection : ℤ) : Option Toolkit :=
  let Num : ℤ := (s.LayoutModes.length : ℤ)
  let s1 : Toolkit := { s with LayoutModeIndex := wrap32 (s.LayoutModeIndex + InDirection) }
  match cppMod s1.LayoutModeIndex Num with
  | none => none
  | some r =>
    match cppMod (wrap32 (Num + r)) Num with
    | none => none
    | some i =>
      let s2 : Toolkit := { s1 with LayoutModeIndex := i }
      if s2.LayoutModeIndex ≥ 0 ∧ s2.LayoutModeIndex < Num then
        let s3 : Toolkit := { s2 with LastLayoutMode := GetCurrentLayoutMode s2 }
        match TArrayAt s3.LayoutModes s3.LayoutModeIndex with
        | some m => some (ChangeMode s3 m)
        | none => none
      else
        some s2

/-- The four commands mapped by `BindCommands`. -/
inductive Command where
  | Select
  | PaintSelect
  | Transformation
  | Paint
  deriving DecidableEq, Repr

/-- The execute action of each command mapped in
`FPhysicalLayoutToolkit::BindCommands`. -/
def ExecuteAction (E : LayoutModeNames) (s : Toolkit) : Command → Toolkit
  | Command.Select =>
    let s1 : Toolkit := ChangeMode s E.Select
    let s2 : Toolkit := { s1 with LayoutModeIndex := 0 }
    callEdMode s2 [Call.UnregisterBrush]
  | Command.PaintSelect =>
    let s1 : Toolkit := ChangeMode s E.PaintSelect
    let s2 : Toolkit := { s1 with LayoutModeIndex := 1 }
    callEdMode s2 [Call.UnregisterBrush]
  | Command.Transformation =>
    let s1 : Toolkit := ChangeMode s E.Transform
    let s2 : Toolkit := { s1 with LayoutModeIndex := 2 }
    callEdMode s2 [Call.UnregisterBrush]
  | Command.Paint =>
    let s1 : Toolkit := ChangeMode s E.Paint
    let s2 : Toolkit := { s1 with LayoutModeIndex := 3 }
    callEdMode s2 [Call.RegisterBrush]

/-- The layout mode a command passes to `ChangeMode`. -/
def Command.mode (E : LayoutModeNames) : Command → String
  | Command.Select => E.Select
  | Command.PaintSelect => E.PaintSelect
  | Command.Transformation => E.Transform
  | Command.Paint => E.Paint

/-! ## Construction and baking -/

/-- The constructor `FPhysicalLayoutToolkit::FPhysicalLayoutToolkit()`. The
member initialisers of the class declaration are outside the translated file:
`members` supplies the scalar members, and the two arrays start empty. -/
def Construct (E : LayoutModeNames) (members : Toolkit) : Toolkit :=
  { members with
    ReferenceMeshes := []
    LayoutModes := []
    bIsPercentRelative := false
    bUseSelected := false
    bEnableGravity := false
    CurrentLayoutMode := E.Select }

/-- The method `FPhysicalLayoutToolkit::Init`, as far as it touches the state:
one reference mesh with percent 100, the four layout modes, and the current
mode. `fresh` is the value of a default-constructed `FReferenceMesh`. -/
def Init (E : LayoutModeNames) (fresh : FReferenceMesh) (s : Toolkit) : Toolkit :=
  let mesh := s.NextPtr
  let s1 : Toolkit := { s with NextPtr := s.NextPtr + 1, Objects := Function.update s.Objects mesh fresh }
  let o : FReferenceMesh := { s1.Objects mesh with Percent := 100 }
  let s2 : Toolkit := { s1 with Objects := Function.update s1.Objects mesh o }
  let s3 : Toolkit := { s2 with ReferenceMeshes := s2.ReferenceMeshes ++ [mesh] }
  let s4 : Toolkit := { s3 with LayoutModes := s3.LayoutModes ++ [E.Select] }
  let s5 : Toolkit := { s4 with LayoutModes := s4.LayoutModes ++ [E.PaintSelect] }
  let s6 : Toolkit := { s5 with LayoutModes := s5.LayoutModes ++ [E.Transform] }
  let s7 : Toolkit := { s6 with LayoutModes := s6.LayoutModes ++ [E.Paint] }
  { s7 with CurrentLayoutMode := E.Transform }

/-- The method `FPhysicalLayoutToolkit::BakeToInstanceMesh`. -/
def BakeToInstanceMesh (s : Toolkit) (BakeSelected : Bool) : Toolkit :=
  match s.EdMode with
  | some EdMode =>
    let q : Call × List ℕ :=
      if BakeSelected then (Call.GetSelectedPrimitives, EdMode.SelectedPrimitives)
      else (Call.GetSpawnedComponents, EdMode.SpawnedComponents)
    let SpawnedComponents := q.2
    let s1 : Toolkit := { s with Calls := s.Calls ++ [q.1] }
    let s2 : Toolkit :=
      if SpawnedComponents.length > 0 then
        { s1 with Calls := s1.Calls ++
            [Call.BeginTransaction, Call.GetWorld, Call.GetWorld,
             Call.MergeComponentsToInstances SpawnedComponents, Call.EndTransaction] }
      else s1
    { s2 with Calls := s2.Calls ++ [Call.DestroyActors BakeSelected] }
  | none => s

/-! ## Handlers of the reference-mesh list, the check boxes and the scale rows -/

/-- `TArray::Find` and `TArray::IndexOfByKey`: the index of the first equal
element, `INDEX_NONE` (-1) when there is none. -/
def TArrayFind (a : List Ptr) (x : Ptr) : ℤ :=
  if x ∈ a then (a.indexOf x : ℤ) else -1

/-- `TArray::RemoveAt(Index)`. -/
def TArrayRemoveAt (a : List Ptr) (Index : ℤ) : List Ptr :=
  a.eraseIdx Index.toNat

/-- The `OnClicked` handler of the add button (source lines 947-953); `fresh` is
the value of a default-constructed `FReferenceMesh`. -/
def OnAddClicked (fresh : FReferenceMesh) (s : Toolkit) : Toolkit :=
  let RefMesh := s.NextPtr
  let s1 : Toolkit :=
    { s with NextPtr := s.NextPtr + 1, Objects := Function.update s.Objects RefMesh fresh }
  { s1 with ReferenceMeshes := s1.ReferenceMeshes ++ [RefMesh] }

/-- The `OnClicked` handler of the delete button of the row of `InItem`
(source lines 257-270). -/
def OnDeleteClicked (s : Toolkit) (InItem : Ptr) : Toolkit :=
  if s.ReferenceMeshes.length > 1 then
    let RefMeshIndex : ℤ := TArrayFind s.ReferenceMeshes InItem
    if RefMeshIndex ≥ 0 then
      { s with ReferenceMeshes := TArrayRemoveAt s.ReferenceMeshes RefMeshIndex }
    else s
  else s

/-- The `OnSelectionChanged` handler of the list view (source lines 965-969);
`InMesh` is `none` for a null pointer, which equals no list entry. -/
def OnSelectionChanged (s : Toolkit) (InMesh : Option Ptr) (g : FRandomDraws) :
    Option Toolkit :=
  let Index : ℤ :=
    match InMesh with
    | some p => TArrayFind s.ReferenceMeshes p
    | none => -1
  SetRandomMesh { s with SelectedMeshIndex := Index } g

/-- Engine enumeration `ECheckBoxState`. -/
inductive ECheckBoxState where
  | Unchecked
  | Checked
  | Undetermined
  deriving DecidableEq, Repr

/-- The loop of the 'Relative Chances' handler (source lines 885-894): every
listed mesh receives `Percent`; `bIsAdjusting` is raised and lowered around the
assignment. The call `RefSlider->SetValue` is not part of the state. -/
def Equalize (Percent : ℚ) : List Ptr → (Ptr → FReferenceMesh) → (Ptr → FReferenceMesh)
  | [], Objects => Objects
  | RefMesh :: rest, Objects =>
    let o1 : FReferenceMesh := { Objects RefMesh with bIsAdjusting := true }
    let o2 : FReferenceMesh := { o1 with Percent := Percent }
    let o3 : FReferenceMesh := { o2 with bIsAdjusting := false }
    Equalize Percent rest (Function.update Objects RefMesh o3)

/-- The `OnCheckStateChanged` handler of the 'Relative Chances' check box
(source lines 877-897). -/
def OnRelativeCheckStateChanged (s : Toolkit) (InCheck : ECheckBoxState) : Toolkit :=
  let s1 : Toolkit :=
    { s with bIsPercentRelative := if InCheck = ECheckBoxState.Checked then true else false }
  if s1.bIsPercentRelative then
    if s1.ReferenceMeshes.length > 1 then
      let Percent : ℚ := 100 / (s1.ReferenceMeshes.length : ℚ)
      { s1 with Objects := Equalize Percent s1.ReferenceMeshes s1.Objects }
    else s1
  else s1

/-- The `OnCheckStateChanged` handler of the 'Use Selected' check box
(source lines 928-931). -/
def OnUseSelectedCheckStateChanged (s : Toolkit) (InCheck : ECheckBoxState) : Toolkit :=
  { s with bUseSelected := if InCheck = ECheckBoxState.Checked then true else false }

/-- The three input fields of a vector row. -/
inductive EAxis where
  | X
  | Y
  | Z
  deriving DecidableEq, Repr

/-- The component of a vector an input field shows. -/
def FVector.component (v : FVector) : EAxis → ℚ
  | EAxis.X => v.X
  | EAxis.Y => v.Y
  | EAxis.Z => v.Z

/-- The handlers `OnXChanged`, `OnYChanged`, `OnZChanged` of the min-scale row
(source lines 683-688). -/
def OnMinScaleChanged (s : Toolkit) (g : FRandomDraws) (InValue : ℚ) : EAxis → Option Toolkit
  | EAxis.X =>
    let s1 : Toolkit := { s with MinScaleRandom := { s.MinScaleRandom with X := InValue } }
    if s1.bMinScaleLock then
      let s2 : Toolkit := { s1 with MinScaleRandom := { s1.MinScaleRandom with Y := InValue } }
      let s3 : Toolkit := { s2 with MinScaleRandom := { s2.MinScaleRandom with Z := InValue } }
      SetRandomMesh s3 g
    else some s1
  | EAxis.Y =>
    let s1 : Toolkit := { s with MinScaleRandom := { s.MinScaleRandom with Y := InValue } }
    if s1.bMinScaleLock then
      let s2 : Toolkit := { s1 with MinScaleRandom := { s1.MinScaleRandom with X := InValue } }
      let s3 : Toolkit := { s2 with MinScaleRandom := { s2.MinScaleRandom with Z := InValue } }
      SetRandomMesh s3 g
    else some s1
  | EAxis.Z =>
    let s1 : Toolkit := { s with MinScaleRandom := { s.MinScaleRandom with Z := InValue } }
    if s1.bMinScaleLock then
      let s2 : Toolkit := { s1 with MinScaleRandom := { s1.MinScaleRandom with X := InValue } }
      let s3 : Toolkit := { s2 with MinScaleRandom := { s2.MinScaleRandom with Y := InValue } }
      SetRandomMesh s3 g
    else some s1

/-- The handlers `OnXChanged`, `OnYChanged`, `OnZChanged` of the max-scale row
(source lines 751-756). -/
def OnMaxScaleChanged (s : Toolkit) (g : FRandomDraws) (InValue : ℚ) : EAxis → Option Toolkit
  | EAxis.X =>
    let s1 : Toolkit := { s with MaxScaleRandom := { s.MaxScaleRandom with X := InValue } }
    if s1.bMaxScaleLock then
      let s2 : Toolkit := { s1 with MaxScaleRandom := { s1.MaxScaleRandom with Y := InValue } }
      let s3 : Toolkit := { s2 with MaxScaleRandom := { s2.MaxScaleRandom with Z := InValue } }
      SetRandomMesh s3 g
    else some s1
  | EAxis.Y =>
    let s1 : Toolkit := { s with MaxScaleRandom := { s.MaxScaleRandom with Y := InValue } }
    if s1.bMaxScaleLock then
      let s2 : Toolkit := { s1 with MaxScaleRandom := { s1.MaxScaleRandom with X := InValue } }
      let s3 : Toolkit := { s2 with MaxScaleRandom := { s2.MaxScaleRandom with Z := InValue } }
      SetRandomMesh s3 g
    else some s1
  | EAxis.Z =>
    let s1 : Toolkit := { s with MaxScaleRandom := { s.MaxScaleRandom with Z := InValue } }
    if s1.bMaxScaleLock then
      let s2 : Toolkit := { s1 with MaxScaleRandom := { s1.MaxScaleRandom with X := InValue } }
      let s3 : Toolkit := { s2 with MaxScaleRandom := { s2.MaxScaleRandom with Y := InValue } }
      SetRandomMesh s3 g
    else some s1

/-- A user action on the paint-mode panel, with the random draws its handler
consumes. -/
inductive UIEvent where
  | AddClicked
  | DeleteClicked (InItem : Ptr)
  | SelectionChanged (InMesh : Option Ptr) (g : FRandomDraws)
  | SliderChanged (InItem : Ptr) (InValue : ℚ) (g : FRandomDraws)
  | RelativeChecked (InCheck : ECheckBoxState)
  | UseSelectedChecked (InCheck : ECheckBoxState)

/-- The handler an action runs. -/
def HandleEvent (fresh : FReferenceMesh) (s : Toolkit) : UIEvent → Option Toolkit
  | UIEvent.AddClicked => some (OnAddClicked fresh s)
  | UIEvent.DeleteClicked InItem => some (OnDeleteClicked s InItem)
  | UIEvent.SelectionChanged InMesh g => OnSelectionChanged s InMesh g
  | UIEvent.SliderChanged InItem InValue g => SliderOnValueChanged s InItem InValue g
  | UIEvent.RelativeChecked InCheck => some (OnRelativeCheckStateChanged s InCheck)
  | UIEvent.UseSelectedChecked InCheck => some (OnUseSelectedCheckStateChanged s InCheck)

/-- A sequence of actions, handled one after the other. -/
def HandleEvents (fresh : FReferenceMesh) : Toolkit → List UIEvent → Option Toolkit
  | s, [] => some s
  | s, e :: es =>
    match HandleEvent fresh s e with
    | some s1 => HandleEvents fresh s1 es
    | none => none

/-- A sequence of toolbar commands, executed one after the other. -/
def ExecuteActions (E : LayoutModeNames) : Toolkit → List Command → Toolkit
  | s, [] => s
  | s, c :: cs => ExecuteActions E (ExecuteAction E s c) cs

/-! ## Derived quantities used in the statements -/

/-- Sum of the percents of the entries of `l` other than `InItem`. -/
def OthersPercent (InItem : Ptr) (Objects : Ptr → FReferenceMesh) (l : List Ptr) : ℚ :=
  ((l.filter (fun p => decide (p ≠ InItem))).map (fun p => (Objects p).Percent)).sum

/-- Room left below 100 in the entries of `l` other than `InItem`. -/
def OthersRoom (InItem : Ptr) (Objects : Ptr → FReferenceMesh) (l : List Ptr) : ℚ :=
  ((l.filter (fun p => decide (p ≠ InItem))).map (fun p => 100 - (Objects p).Percent)).sum

/-- The percent an entry holds after one step of the loop. -/
def stepPercent (q d : ℚ) : ℚ := Clamp (q + d) 0 100

/-- The carry one step of the loop passes on. -/
def stepCarry (q d : ℚ) : ℚ :=
  if q + d < 0 then q + d else if q + d ≥ 100 then q + d - 100 else 0

/-- The entries `SetRandomMesh` keeps after `FilterByPredicate`. -/
def PickedMeshes (s : Toolkit) (g : FRandomDraws) : List Ptr :=
  s.ReferenceMeshes.filter (Eligible s (TruncToInt (FRandRange 0 100 g.Roll)))

/-- The integer draw of `SetRandomMesh`: `RandRange(0, PickedMeshes.Num() - 1)`. -/
def PickedIndex (s : Toolkit) (g : FRandomDraws) : ℤ :=
  g.RandRange 0 (((PickedMeshes s g).length : ℤ) - 1)

/-- The heap of reference meshes the slider handler leaves behind. -/
def SliderObjects (s : Toolkit) (InItem : Ptr) (v : ℚ) : Ptr → FReferenceMesh :=
  let H0 := Function.update s.Objects InItem { s.Objects InItem with Percent := v }
  if s.bIsPercentRelative = true ∧ (s.Objects InItem).bIsAdjusting = false ∧
      1 < s.ReferenceMeshes.length then
    (Redistribute InItem s.ReferenceMeshes H0 ((s.Objects InItem).Percent - v)).1
  else H0

/-- Add-button and delete-button clicks. -/
def UIEvent.isListEdit : UIEvent → Bool
  | UIEvent.AddClicked => true
  | UIEvent.DeleteClicked _ => true
  | _ => false

/-- Calls that register or unregister the brush. -/
def Call.isBrush : Call → Bool
  | Call.RegisterBrush => true
  | Call.UnregisterBrush => true
  | _ => false

/-- The brush call a command makes when an editor mode is attached. -/
def Command.brushCall : Command → Call
  | Command.Paint => Call.RegisterBrush
  | _ => Call.UnregisterBrush

/-- The last brush call of a record of calls, if there is one. -/
def LastBrushCall (cs : List Call) : Option Call :=
  (cs.filter Call.isBrush).getLast?

/-- The handler reached the transform roll of `SetRandomMesh`: either
'Use Selected' is on, or some reference mesh passed the filter. -/
def ReachesTransformRoll (s : Toolkit) (g : FRandomDraws) : Prop :=
  s.bUseSelected = true ∨ PickedMeshes s g ≠ []

/-- The index a command writes into `LayoutModeIndex` (source lines 1110, 1129,
1148, 1167). -/
def Command.index : Command → ℤ
  | Command.Select => 0
  | Command.PaintSelect => 1
  | Command.Transformation => 2
  | Command.Paint => 3

/-- A mode switch made through the toolkit: a toolbar command or a call of
`ChangeMode(int)`. -/
inductive ModeSwitch where
  | Execute (c : Command)
  | Step (InDirection : ℤ)
  deriving DecidableEq, Repr

/-- One mode switch. -/
def SwitchMode (E : LayoutModeNames) (s : Toolkit) : ModeSwitch → Option Toolkit
  | ModeSwitch.Execute c => some (ExecuteAction E s c)
  | ModeSwitch.Step InDirection => ChangeModeInt s InDirection

/-- A sequence of mode switches, made one after the other. -/
def SwitchModes (E : LayoutModeNames) : Toolkit → List ModeSwitch → Option Toolkit
  | s, [] => some s
  | s, m :: ms =>
    match SwitchMode E s m with
    | some s1 => SwitchModes E s1 ms
    | none => none

/-- The mode index and the mode name agree: `LayoutModes[LayoutModeIndex]` is
`CurrentLayoutMode`. -/
def ModeIndexAgrees (s : Toolkit) : Prop :=
  TArrayAt s.LayoutModes s.LayoutModeIndex = some s.CurrentLayoutMode

/-- Redistribution with carry in the words of the specification: each percent in
turn receives the amount handed to it, keeps what fits into `[0, 100]`, and
hands on the part that would take it below 0 or to or above 100. -/
def CarryChain : ℚ → List ℚ → List ℚ
  | _, [] => []
  | d, q :: qs =>
    Clamp (q + d) 0 100 ::
      CarryChain (if q + d < 0 then q + d else if q + d ≥ 100 then q + d - 100 else 0) qs

/-- The other meshes of the list, in list order: the entries that are not the
changed mesh. -/
def OtherMeshes (s : Toolkit) (InItem : Ptr) : List Ptr :=
  s.ReferenceMeshes.filter (fun p => decide (p ≠ InItem))

/-- The condition of the reference-mesh list that the handlers maintain: the
entries are distinct addresses handed out by the allocator, their percents lie
in `[0, 100]` and no `bIsAdjusting` flag is raised. -/
def ListWellFormed (s : Toolkit) : Prop :=
  s.ReferenceMeshes.Nodup ∧ (∀ p ∈ s.ReferenceMeshes, p < s.NextPtr) ∧
  ∀ p ∈ s.ReferenceMeshes,
    0 ≤ (s.Objects p).Percent ∧ (s.Objects p).Percent ≤ 100 ∧
      (s.Objects p).bIsAdjusting = false

/-- A slider event carries a value of the slider's range `[0, 100]`; the other
events carry no value. -/
def UIEvent.valueInRange : UIEvent → Prop
  | UIEvent.SliderChanged _ InValue _ => 0 ≤ InValue ∧ InValue ≤ 100
  | _ => True

/-- Selection by cumulative percentage in the words of the specification: the
first index whose running total of percents (indices up to and including it)
reaches the roll `r`. -/
def CumulativeIndex (percents : List ℚ) (r : ℚ) : Option ℕ :=
  (List.range percents.length).find? (fun i => decide (r ≤ (percents.take (i + 1)).sum))

/-- The component list `BakeToInstanceMesh` works on: the selected primitives of
the editor mode when `BakeSelected` is set, its spawned components otherwise. -/
def BakedComponents (EdMode : FPhysicalLayoutMode) (BakeSelected : Bool) : List ℕ :=
  if BakeSelected then EdMode.SelectedPrimitives else EdMode.SpawnedComponents

/-- The calls made by an operation that took the toolkit from `s` to `t`. -/
def NewCalls (s t : Toolkit) : List Call := t.Calls.drop s.Calls.length

/-! ## Sample data -/

/-- A static mesh asset with bounding-sphere radius 3. -/
def meshA : UStaticMesh := ⟨1, false, 3⟩

/-- A second static mesh asset. -/
def meshB : UStaticMesh := ⟨2, false, 1⟩

/-- A third static mesh asset. -/
def meshC : UStaticMesh := ⟨3, false, 1⟩

/-- The zero vector. -/
def FVector.Zero : FVector := ⟨0, 0, 0⟩

/-- The zero rotator. -/
def FRotator.Zero : FRotator := ⟨0, 0, 0⟩

/-- A value for a default-constructed `FReferenceMesh`. -/
def freshMesh : FReferenceMesh := ⟨"", none, 0, false⟩

/-- Names for the four layout modes. -/
def sampleNames : LayoutModeNames := ⟨"Select", "PaintSelect", "Transform", "Paint"⟩

/-- A heap with three reference meshes at addresses 0, 1, 2 holding the
percents 10, 5 and 85, each with a valid mesh asset. -/
def sampleObjects : Ptr → FReferenceMesh := fun p =>
  if p = 0 then ⟨"A", some meshA, 10, false⟩
  else if p = 1 then ⟨"B", some meshB, 5, false⟩
  else if p = 2 then ⟨"C", some meshC, 85, false⟩
  else freshMesh

/-- A toolkit after `Init` whose list holds the three sample meshes; no editor
mode attached, nothing picked yet. -/
def sampleToolkit : Toolkit :=
  { bIsPercentRelative := false
    bUseSelected := false
    bEnableGravity := false
    bMinScaleLock := false
    bMaxScaleLock := false
    CurrentLayoutMode := "Transform"
    LastLayoutMode := ""
    LayoutModes := ["Select", "PaintSelect", "Transform", "Paint"]
    LayoutModeIndex := 0
    ReferenceMeshes := [0, 1, 2]
    Objects := sampleObjects
    NextPtr := 3
    SelectedMeshIndex := -1
    PickedMesh := none
    fMinDistance := 2
    MinPositionRandom := FVector.Zero
    MaxPositionRandom := FVector.Zero
    MinRotateRandom := FRotator.Zero
    MaxRotateRandom := FRotator.Zero
    MinScaleRandom := ⟨1, 1, 1⟩
    MaxScaleRandom := ⟨1, 1, 1⟩
    PositionRandom := FVector.Zero
    RotateRandom := FRotator.Zero
    ScaleRandom := ⟨1, 1, 1⟩
    EdMode := none
    Calls := [] }

/-- An editor mode with two selected primitives and three spawned components. -/
def sampleEdMode : FPhysicalLayoutMode := ⟨[7, 8], [7, 8, 9]⟩

/-- Random draws whose roll `FRand()` is `t`, whose integer draw returns the
lower bound and whose other fractions are 0. -/
def drawsAt (t : ℚ) : FRandomDraws :=
  ⟨t, fun lo _ => lo, FVector.Zero, FVector.Zero, 0, FVector.Zero⟩

/-- A toolkit whose only reference mesh has a valid asset and percent 0. -/
def zeroPercentToolkit : Toolkit :=
  { sampleToolkit with
    ReferenceMeshes := [0]
    Objects := fun _ => ⟨"A", some meshA, 0, false⟩ }

/-- The integer draw that returns `k` whenever `k` lies between the bounds. -/
def drawIndex (g : FRandomDraws) (k : ℕ) : FRandomDraws :=
  { g with RandRange := fun lo hi => max lo (min hi (k : ℤ)) }

/-- A toolkit in relative-chances mode whose two listed meshes hold 60 and 40
percent. -/
def relativeToolkit : Toolkit :=
  { sampleToolkit with
    bIsPercentRelative := true
    ReferenceMeshes := [0, 1]
    Objects := fun p => if p = 0 then ⟨"A", some meshA, 60, false⟩
                        else ⟨"B", some meshB, 40, false⟩ }

/-- A toolkit with the first sample mesh picked and the scale `(2, 2, 1)`, whose
size is 3. -/
def scaledToolkit : Toolkit :=
  { sampleToolkit with PickedMesh := some meshA, ScaleRandom := ⟨2, 2, 1⟩ }

/-- The toolkit right after construction and `Init`, built from the sample
members: one reference mesh, at address 3, with percent 100. -/
def initToolkit : Toolkit :=
  Init sampleNames freshMesh (Construct sampleNames sampleToolkit)

/-- The toolkit after `Init` with the asset `meshA` assigned to its only
reference mesh. -/
def initToolkitWithMesh : Toolkit :=
  { initToolkit with
    Objects := Function.update initToolkit.Objects 3
      { initToolkit.Objects 3 with StaticMesh := some meshA } }

/-- A toolkit with 'Use Selected' on, nothing selected, both scale locks on and
the scale bounds `(1, 5, 7)` and `(3, 6, 8)`. -/
def lockedToolkit : Toolkit :=
  { sampleToolkit with
    bUseSelected := true
    bMinScaleLock := true
    bMaxScaleLock := true
    MinScaleRandom := ⟨1, 5, 7⟩
    MaxScaleRandom := ⟨3, 6, 8⟩ }

/-- Random draws whose roll and uniform-scale fractions are one half. -/
def halfDraws : FRandomDraws :=
  ⟨1 / 2, fun lo _ => lo, FVector.Zero, FVector.Zero, 1 / 2, FVector.Zero⟩

/-- A relative-chances toolkit whose three meshes hold 30, 10 and 60. -/
def carryToolkit : Toolkit :=
  { sampleToolkit with
    bIsPercentRelative := true
    Objects := fun p => if p = 0 then ⟨"A", some meshA, 30, false⟩
                        else if p = 1 then ⟨"B", some meshB, 10, false⟩
                        else ⟨"C", some meshC, 60, false⟩ }

/-! ## Lemmas on the redistribution loop and on `SetRandomMesh` -/

theorem Clamp_mem (X : ℚ) : 0 ≤ Clamp X 0 100 ∧ Clamp X 0 100 ≤ 100 := by
  unfold Clamp
  split_ifs <;> constructor <;> linarith

theorem Redistribute_nil (InItem : Ptr) (H : Ptr → FReferenceMesh) (d : ℚ) :
    Redistribute InItem [] H d = (H, d) := rfl

theorem Redistribute_cons_self (InItem : Ptr) (l : List Ptr) (H : Ptr → FReferenceMesh) (d : ℚ) :
    Redistribute InItem (InItem :: l) H d = Redistribute InItem l H d := by
  simp [Redistribute]

theorem Redistribute_cons_other (InItem r : Ptr) (l : List Ptr) (H : Ptr → FReferenceMesh)
    (d : ℚ) (hr : r ≠ InItem) :
    Redistribute InItem (r :: l) H d =
      Redistribute InItem l
        (Function.update H r
          { H r with Percent := stepPercent (H r).Percent d, bIsAdjusting := false })
        (stepCarry (H r).Percent d) := by
  simp [Redistribute, hr, stepPercent, stepCarry]

theorem stepPercent_add_stepCarry (q d : ℚ) : stepPercent q d + stepCarry q d = q + d := by
  unfold stepPercent stepCarry Clamp
  split_ifs <;> linarith

theorem Redistribute_frame (InItem : Ptr) (l : List Ptr) :
    ∀ (H : Ptr → FReferenceMesh) (d : ℚ) (q : Ptr), (q ∉ l ∨ q = InItem) →
      (Redistribute InItem l H d).1 q = H q := by
  induction l with
  | nil => intro H d q _; rfl
  | cons r l ih =>
    intro H d q hq
    by_cases hr : r = InItem
    · subst hr
      rw [Redistribute_cons_self]
      apply ih
      rcases hq with hq | hq
      · left; exact fun h => hq (List.mem_cons_of_mem _ h)
      · right; exact hq
    · rw [Redistribute_cons_other _ _ _ _ _ hr]
      have hqr : q ≠ r := by
        rcases hq with hq | hq
        · exact fun h => hq (h ▸ List.mem_cons_self _ _)
        · exact fun h => hr (h ▸ hq)
      rw [ih _ _ q]
      · exact Function.update_noteq hqr _ _
      · rcases hq with hq | hq
        · left; exact fun h => hq (List.mem_cons_of_mem _ h)
        · right; exact hq

theorem Redistribute_range (InItem : Ptr) (l : List Ptr) :
    ∀ (H : Ptr → FReferenceMesh) (d : ℚ) (q : Ptr),
      (0 ≤ (H q).Percent ∧ (H q).Percent ≤ 100) →
      0 ≤ ((Redistribute InItem l H d).1 q).Percent ∧
        ((Redistribute InItem l H d).1 q).Percent ≤ 100 := by
  induction l with
  | nil => intro H d q h; exact h
  | cons r l ih =>
    intro H d q h
    by_cases hr : r = InItem
    · subst hr
      rw [Redistribute_cons_self]
      exact ih H d q h
    · rw [Redistribute_cons_other _ _ _ _ _ hr]
      apply ih
      by_cases hqr : q = r
      · subst hqr
        simp only [Function.update_same]
        exact Clamp_mem _
      · rw [Function.update_noteq hqr]
        exact h

theorem OthersPercent_nil (InItem : Ptr) (H : Ptr → FReferenceMesh) :
    OthersPercent InItem H [] = 0 := rfl

theorem OthersPercent_cons_self (InItem : Ptr) (H : Ptr → FReferenceMesh) (l : List Ptr) :
    OthersPercent InItem H (InItem :: l) = OthersPercent InItem H l := by
  simp [OthersPercent]

theorem OthersPercent_cons_other (InItem r : Ptr) (H : Ptr → FReferenceMesh) (l : List Ptr)
    (hr : r ≠ InItem) :
    OthersPercent InItem H (r :: l) = (H r).Percent + OthersPercent InItem H l := by
  simp [OthersPercent, hr]

theorem OthersRoom_eq (InItem : Ptr) (H : Ptr → FReferenceMesh) (l : List Ptr) :
    OthersRoom InItem H l =
      100 * ((l.filter (fun p => decide (p ≠ InItem))).length : ℚ) - OthersPercent InItem H l := by
  unfold OthersRoom OthersPercent
  induction l.filter (fun p => decide (p ≠ InItem)) with
  | nil => simp
  | cons a t ih => simp only [List.map_cons, List.sum_cons, List.length_cons, ih]; push_cast; ring

theorem OthersPercent_congr (InItem : Ptr) (H K : Ptr → FReferenceMesh) (l : List Ptr)
    (h : ∀ p ∈ l, p ≠ InItem → (K p).Percent = (H p).Percent) :
    OthersPercent InItem K l = OthersPercent InItem H l := by
  unfold OthersPercent
  congr 1
  apply List.map_congr_left
  intro p hp
  rw [List.mem_filter] at hp
  exact h p hp.1 (by simpa using hp.2)

theorem OthersPercent_update (InItem r : Ptr) (H : Ptr → FReferenceMesh) (o : FReferenceMesh)
    (l : List Ptr) (hr : r ∉ l) :
    OthersPercent InItem (Function.update H r o) l = OthersPercent InItem H l := by
  apply OthersPercent_congr
  intro p hp _
  rw [Function.update_noteq (fun (h : p = r) => hr (h ▸ hp))]

theorem TotalPercent_split (InItem : Ptr) (H : Ptr → FReferenceMesh) (l : List Ptr)
    (hnd : l.Nodup) (hmem : InItem ∈ l) :
    (l.map (fun p => (H p).Percent)).sum = (H InItem).Percent + OthersPercent InItem H l := by
  induction l with
  | nil => simp at hmem
  | cons r l ih =>
    rw [List.nodup_cons] at hnd
    by_cases hr : r = InItem
    · subst hr
      rw [OthersPercent_cons_self, List.map_cons, List.sum_cons]
      congr 1
      have : OthersPercent r H l = (l.map (fun p => (H p).Percent)).sum := by
        unfold OthersPercent
        congr 2
        rw [List.filter_eq_self]
        intro p hp
        simpa using fun (h : p = r) => hnd.1 (h ▸ hp)
      rw [this]
    · rw [OthersPercent_cons_other _ _ _ _ hr, List.map_cons, List.sum_cons]
      have hm : InItem ∈ l := by
        rcases List.mem_cons.1 hmem with h | h
        · exact absurd h.symm hr
        · exact h
      rw [ih hnd.2 hm]
      ring

/-- Over a duplicate-free list the loop conserves percent plus carry. -/
theorem Redistribute_conserves (InItem : Ptr) (l : List Ptr) :
    ∀ (H : Ptr → FReferenceMesh) (d : ℚ), l.Nodup →
      OthersPercent InItem (Redistribute InItem l H d).1 l + (Redistribute InItem l H d).2 =
        OthersPercent InItem H l + d := by
  induction l with
  | nil => intro H d _; simp [Redistribute_nil, OthersPercent_nil]
  | cons r l ih =>
    intro H d hnd
    rw [List.nodup_cons] at hnd
    by_cases hr : r = InItem
    · subst hr
      rw [Redistribute_cons_self, OthersPercent_cons_self, OthersPercent_cons_self]
      exact ih H d hnd.2
    · rw [Redistribute_cons_other _ _ _ _ _ hr, OthersPercent_cons_other _ _ _ _ hr,
        OthersPercent_cons_other _ _ _ _ hr]
      rw [Redistribute_frame InItem l _ _ r (Or.inl hnd.1)]
      have := ih (Function.update H r
          { H r with Percent := stepPercent (H r).Percent d, bIsAdjusting := false })
        (stepCarry (H r).Percent d) hnd.2
      rw [OthersPercent_update _ _ _ _ _ hnd.1] at this
      simp only [Function.update_same]
      have h2 := stepPercent_add_stepCarry (H r).Percent d
      linarith

/-- The carry dies out when the other entries can absorb it: the amount to take
away does not exceed their total, the amount to add does not exceed their room. -/
theorem Redistribute_carry_zero (InItem : Ptr) (l : List Ptr) :
    ∀ (H : Ptr → FReferenceMesh) (d : ℚ), l.Nodup →
      (∀ p ∈ l, p ≠ InItem → 0 ≤ (H p).Percent ∧ (H p).Percent ≤ 100) →
      -(OthersPercent InItem H l) ≤ d → d ≤ OthersRoom InItem H l →
      (Redistribute InItem l H d).2 = 0 := by
  induction l with
  | nil =>
    intro H d _ _ h1 h2
    simp [OthersPercent, OthersRoom] at h1 h2
    simp [Redistribute_nil]; linarith
  | cons r l ih =>
    intro H d hnd hrange h1 h2
    rw [List.nodup_cons] at hnd
    by_cases hr : r = InItem
    · subst hr
      rw [Redistribute_cons_self]
      rw [OthersPercent_cons_self] at h1
      rw [OthersRoom_eq, OthersPercent_cons_self] at h2
      apply ih H d hnd.2 (fun p hp => hrange p (List.mem_cons_of_mem _ hp)) h1
      rw [OthersRoom_eq]
      simpa using h2
    · rw [Redistribute_cons_other _ _ _ _ _ hr]
      rw [OthersPercent_cons_other _ _ _ _ hr] at h1
      rw [OthersRoom_eq, OthersPercent_cons_other _ _ _ _ hr] at h2
      have hlen : ((List.filter (fun p => decide (p ≠ InItem)) (r :: l)).length : ℚ) =
          ((List.filter (fun p => decide (p ≠ InItem)) l).length : ℚ) + 1 := by
        simp [hr]
      rw [hlen] at h2
      have htail : ∀ p ∈ l, p ≠ InItem → 0 ≤ (H p).Percent ∧ (H p).Percent ≤ 100 :=
        fun p hp => hrange p (List.mem_cons_of_mem _ hp)
      have hS : 0 ≤ OthersPercent InItem H l := by
        unfold OthersPercent
        apply List.sum_nonneg
        intro x hx
        rw [List.mem_map] at hx
        obtain ⟨p, hp, rfl⟩ := hx
        rw [List.mem_filter] at hp
        exact (htail p hp.1 (by simpa using hp.2)).1
      have hRoom : 0 ≤ OthersRoom InItem H l := by
        unfold OthersRoom
        apply List.sum_nonneg
        intro x hx
        rw [List.mem_map] at hx
        obtain ⟨p, hp, rfl⟩ := hx
        rw [List.mem_filter] at hp
        have := (htail p hp.1 (by simpa using hp.2)).2
        linarith
      rw [OthersRoom_eq] at hRoom
      apply ih
      · exact hnd.2
      · intro p hp hpi
        rw [Function.update_noteq (fun (h : p = r) => hnd.1 (h ▸ hp))]
        exact htail p hp hpi
      · rw [OthersPercent_update _ _ _ _ _ hnd.1]
        unfold stepCarry
        split_ifs <;> linarith
      · rw [OthersRoom_eq, OthersPercent_update _ _ _ _ _ hnd.1]
        unfold stepCarry
        split_ifs <;> linarith

theorem TArrayAt_some {α : Type} (a : List α) (i : ℤ) (h0 : 0 ≤ i) (h1 : i < a.length) :
    ∃ x, TArrayAt a i = some x ∧ a[i.toNat]? = some x := by
  have hlt : i.toNat < a.length := by omega
  refine ⟨a[i.toNat], ?_, ?_⟩
  · simp [TArrayAt, h0, List.getElem?_eq_getElem hlt]
  · exact List.getElem?_eq_getElem hlt

theorem TArrayAt_eq_some {α : Type} (a : List α) (i : ℤ) (x : α) (h : TArrayAt a i = some x) :
    0 ≤ i ∧ i.toNat < a.length ∧ a[i.toNat]? = some x := by
  unfold TArrayAt at h
  split_ifs at h with h0
  refine ⟨h0, ?_, h⟩
  exact (List.getElem?_eq_some_iff.1 h).1

theorem SetRandomMesh_useSelected (s : Toolkit) (g : FRandomDraws) (h : s.bUseSelected = true) :
    SetRandomMesh s g =
      if s.SelectedMeshIndex ≥ 0 then
        (TArrayAt s.ReferenceMeshes s.SelectedMeshIndex).map
          (fun p => RollTransform { s with PickedMesh := (s.Objects p).StaticMesh } g)
      else some (RollTransform s g) := by
  rw [SetRandomMesh, if_pos h]
  split_ifs
  · cases TArrayAt s.ReferenceMeshes s.SelectedMeshIndex <;> rfl
  · rfl

theorem SetRandomMesh_random (s : Toolkit) (g : FRandomDraws) (h : s.bUseSelected = false) :
    SetRandomMesh s g =
      if (PickedMeshes s g).length = 0 then some s
      else
        (TArrayAt (PickedMeshes s g) (PickedIndex s g)).map
          (fun p => RollTransform { s with PickedMesh := (s.Objects p).StaticMesh } g) := by
  rw [SetRandomMesh, if_neg (by rw [h]; exact Bool.false_ne_true)]
  simp only [PickedMeshes, PickedIndex]
  split_ifs
  · rfl
  · cases TArrayAt _ _ <;> rfl

theorem PickedIndex_range (s : Toolkit) (g : FRandomDraws) (hg : g.Valid)
    (hne : (PickedMeshes s g).length ≠ 0) :
    0 ≤ PickedIndex s g ∧ PickedIndex s g < (PickedMeshes s g).length := by
  have hle : (0 : ℤ) ≤ ((PickedMeshes s g).length : ℤ) - 1 := by omega
  have h1 := hg.range_ge 0 _ hle
  have h2 := hg.range_le 0 _ hle
  unfold PickedIndex
  constructor <;> omega

theorem SetRandomMesh_frame (s : Toolkit) (g : FRandomDraws) (s' : Toolkit)
    (h : SetRandomMesh s g = some s') :
    s'.Objects = s.Objects ∧ s'.ReferenceMeshes = s.ReferenceMeshes := by
  cases hsel : s.bUseSelected
  · rw [SetRandomMesh_random s g hsel] at h
    split_ifs at h
    · cases h; exact ⟨rfl, rfl⟩
    · rw [Option.map_eq_some'] at h
      obtain ⟨p, _, rfl⟩ := h
      exact ⟨rfl, rfl⟩
  · rw [SetRandomMesh_useSelected s g hsel] at h
    split_ifs at h
    · rw [Option.map_eq_some'] at h
      obtain ⟨p, _, rfl⟩ := h
      exact ⟨rfl, rfl⟩
    · cases h; exact ⟨rfl, rfl⟩

theorem SetRandomMesh_isSome (s : Toolkit) (g : FRandomDraws)
    (hsel : s.bUseSelected = true → s.SelectedMeshIndex < s.ReferenceMeshes.length)
    (hg : g.Valid) : ∃ s', SetRandomMesh s g = some s' := by
  cases hs : s.bUseSelected
  · rw [SetRandomMesh_random s g hs]
    split_ifs with h3
    · exact ⟨_, rfl⟩
    · obtain ⟨h0, h1⟩ := PickedIndex_range s g hg h3
      obtain ⟨x, hx, _⟩ := TArrayAt_some _ _ h0 h1
      rw [hx]; exact ⟨_, rfl⟩
  · rw [SetRandomMesh_useSelected s g hs]
    split_ifs with h2
    · obtain ⟨x, hx, _⟩ := TArrayAt_some s.ReferenceMeshes s.SelectedMeshIndex h2 (hsel hs)
      rw [hx]; exact ⟨_, rfl⟩
    · exact ⟨_, rfl⟩

theorem SliderOnValueChanged_frame (s : Toolkit) (InItem : Ptr) (v : ℚ) (g : FRandomDraws)
    (s' : Toolkit) (h : SliderOnValueChanged s InItem v g = some s') :
    s'.ReferenceMeshes = s.ReferenceMeshes ∧ s'.Objects = SliderObjects s InItem v := by
  simp only [SliderOnValueChanged, Function.update_same] at h
  unfold SliderObjects
  split_ifs at h with h1 h2 h3
  · cases h
    refine ⟨rfl, ?_⟩
    rw [if_neg (by simp [h2])]
  · obtain ⟨ho, hl⟩ := SetRandomMesh_frame _ _ _ h
    refine ⟨hl, ?_⟩
    rw [if_pos ⟨h1, by simpa using h2, h3⟩]
    exact ho
  · obtain ⟨ho, hl⟩ := SetRandomMesh_frame _ _ _ h
    refine ⟨hl, ?_⟩
    rw [if_neg (fun hh => h3 hh.2.2)]
    exact ho
  · obtain ⟨ho, hl⟩ := SetRandomMesh_frame _ _ _ h
    refine ⟨hl, ?_⟩
    rw [if_neg (fun hh => h1 hh.1)]
    exact ho

theorem SliderOnValueChanged_isSome (s : Toolkit) (InItem : Ptr) (v : ℚ) (g : FRandomDraws)
    (hsel : s.bUseSelected = true → s.SelectedMeshIndex < s.ReferenceMeshes.length)
    (hg : g.Valid) : ∃ s', SliderOnValueChanged s InItem v g = some s' := by
  simp only [SliderOnValueChanged]
  split_ifs
  · exact ⟨_, rfl⟩
  · exact SetRandomMesh_isSome _ g hsel hg
  · exact SetRandomMesh_isSome _ g hsel hg
  · exact SetRandomMesh_isSome _ g hsel hg

/-! ## Lemmas on draws, calls and the mode index -/

theorem zero_unitFractions : FVector.Zero.UnitFractions := by
  unfold FVector.UnitFractions UnitFraction FVector.Zero
  norm_num

theorem drawsAt_valid (t : ℚ) (h0 : 0 ≤ t) (h1 : t ≤ 1) : (drawsAt t).Valid :=
  ⟨⟨h0, h1⟩, fun _ _ _ => le_refl _, fun _ _ h => h, zero_unitFractions, zero_unitFractions,
    ⟨le_refl _, zero_le_one⟩, zero_unitFractions⟩

theorem mem_PickedMeshes (s : Toolkit) (g : FRandomDraws) (p : Ptr) :
    p ∈ PickedMeshes s g ↔
      p ∈ s.ReferenceMeshes ∧ IsValid (s.Objects p).StaticMesh = true ∧
        ((TruncToInt (FRandRange 0 100 g.Roll) : ℤ) : ℚ) ≤ (s.Objects p).Percent := by
  simp [PickedMeshes, Eligible, List.mem_filter]

theorem PickedMeshes_eq_filter (s : Toolkit) (g : FRandomDraws) :
    PickedMeshes s g = s.ReferenceMeshes.filter (fun p =>
      IsValid (s.Objects p).StaticMesh &&
        decide (((TruncToInt (FRandRange 0 100 g.Roll) : ℤ) : ℚ) ≤ (s.Objects p).Percent)) := by
  unfold PickedMeshes
  apply List.filter_congr
  intro p _
  unfold Eligible
  rfl

theorem drawIndex_valid (g : FRandomDraws) (k : ℕ) (hg : g.Valid) : (drawIndex g k).Valid :=
  ⟨hg.roll, fun _ _ _ => le_max_left _ _, fun _ _ h => max_le h (min_le_left _ _),
    hg.position, hg.rotation, hg.uniformScale, hg.scale⟩

theorem NewCalls_append (s t : Toolkit) (cs : List Call) (h : t.Calls = s.Calls ++ cs) :
    NewCalls s t = cs := by
  unfold NewCalls
  rw [h, List.drop_left]

theorem tmod_pos_bounds (a b : ℤ) (hb : 0 < b) :
    -b < a.tmod b ∧ a.tmod b < b ∧ (b + a.tmod b) % b = a % b := by
  have h1 := Int.tmod_lt_of_pos a hb
  have h2 := Int.tdiv_add_tmod a b
  have h3 : -b < a.tmod b := by
    rcases le_or_lt 0 a with ha | ha
    · have := Int.tmod_nonneg b ha
      omega
    · have hn : 0 ≤ -a := by omega
      have h4 := Int.tmod_lt_of_pos (-a) hb
      have h5 : (-a).tmod b = -(a.tmod b) := by
        rw [Int.tmod_def, Int.tmod_def, Int.neg_tdiv]
        ring
      omega
  refine ⟨h3, h1, ?_⟩
  have : b + a.tmod b = a + b * (1 - a.tdiv b) := by
    have := Int.tmod_def a b
    rw [this]; ring
  rw [this, Int.add_mul_emod_self_left]

theorem wrap32_of_range (i : ℤ) (h0 : -2147483648 ≤ i) (h1 : i ≤ 2147483647) : wrap32 i = i := by
  unfold wrap32
  omega

theorem ChangeMode_LayoutModes (s : Toolkit) (m : String) :
    (ChangeMode s m).LayoutModes = s.LayoutModes ∧
    (ChangeMode s m).LayoutModeIndex = s.LayoutModeIndex ∧
    (ChangeMode s m).CurrentLayoutMode = m ∧
    (ChangeMode s m).LastLayoutMode = s.CurrentLayoutMode := by
  unfold ChangeMode callEdMode
  cases s.EdMode <;> exact ⟨rfl, rfl, rfl, rfl⟩

/-! ## The claims -/

/-- C1 (counterexample): three valid meshes with percents 10, 5, 85 and the
roll 12. The cumulative rule names index 1 (running totals 10, 15, 100), but
`SetRandomMesh` keeps only the third mesh (85 ≥ 12) and picks it. -/
theorem setRandomMesh_not_cumulative :
    (drawsAt (3 / 25)).Valid ∧
    sampleToolkit.bUseSelected = false ∧
    (∀ p ∈ sampleToolkit.ReferenceMeshes, IsValid (sampleToolkit.Objects p).StaticMesh = true) ∧
    FRandRange 0 100 (drawsAt (3 / 25)).Roll = 12 ∧
    CumulativeIndex
      (sampleToolkit.ReferenceMeshes.map (fun p => (sampleToolkit.Objects p).Percent)) 12
        = some 1 ∧
    (sampleToolkit.ReferenceMeshes[1]?.map (fun p => (sampleToolkit.Objects p).StaticMesh))
        = some (some meshB) ∧
    (SetRandomMesh sampleToolkit (drawsAt (3 / 25))).map (fun t => t.PickedMesh)
        = some (some meshC) ∧
    meshC ≠ meshB := by
  refine ⟨drawsAt_valid _ (by norm_num) (by norm_num), rfl, ?_, ?_, ?_, ?_, ?_, ?_⟩
  · decide
  · norm_num [FRandRange, drawsAt]
  · decide!
  · decide
  · decide!
  · decide

/-- C1 (amended): with 'Use Selected' off and valid draws, `SetRandomMesh` keeps,
in list order, the entries with a valid mesh asset whose own percent is at
least the truncated roll, and picks the entry at the position given by the
integer draw over that filtered list; when no entry qualifies it returns
without picking. -/
theorem setRandomMesh_picks_from_threshold_filter (s : Toolkit) (g : FRandomDraws)
    (hsel : s.bUseSelected = false) (hg : g.Valid) :
    (∀ p, p ∈ PickedMeshes s g ↔
      p ∈ s.ReferenceMeshes ∧ IsValid (s.Objects p).StaticMesh = true ∧
        ((TruncToInt (FRandRange 0 100 g.Roll) : ℤ) : ℚ) ≤ (s.Objects p).Percent) ∧
    (PickedMeshes s g).Sublist s.ReferenceMeshes ∧
    (PickedMeshes s g = [] → SetRandomMesh s g = some s) ∧
    (PickedMeshes s g ≠ [] →
      0 ≤ PickedIndex s g ∧ PickedIndex s g < (PickedMeshes s g).length ∧
      ∃ p s', (PickedMeshes s g)[(PickedIndex s g).toNat]? = some p ∧
        SetRandomMesh s g = some s' ∧ s'.PickedMesh = (s.Objects p).StaticMesh) := by
  refine ⟨mem_PickedMeshes s g, List.filter_sublist _, ?_, ?_⟩
  · intro h
    rw [SetRandomMesh_random s g hsel, if_pos (by rw [h]; rfl)]
  · intro h
    have hne : (PickedMeshes s g).length ≠ 0 := fun h0 => h (List.length_eq_zero.1 h0)
    obtain ⟨h0, h1⟩ := PickedIndex_range s g hg hne
    obtain ⟨p, hp, hp'⟩ := TArrayAt_some _ _ h0 h1
    refine ⟨h0, h1, p,
      RollTransform { s with PickedMesh := (s.Objects p).StaticMesh } g, hp', ?_, rfl⟩
    rw [SetRandomMesh_random s g hsel, if_neg hne, hp]; rfl

/-- C1 (witness): the amended statement at the sample toolkit with roll 12. -/
theorem setRandomMesh_picks_from_threshold_filter_witness :
    PickedMeshes sampleToolkit (drawsAt (3 / 25)) = [2] ∧
    ∃ s', SetRandomMesh sampleToolkit (drawsAt (3 / 25)) = some s' ∧
      s'.PickedMesh = some meshC := by
  have hP : PickedMeshes sampleToolkit (drawsAt (3 / 25)) = [2] := by decide!
  have h := (setRandomMesh_picks_from_threshold_filter sampleToolkit (drawsAt (3 / 25)) rfl
    (drawsAt_valid _ (by norm_num) (by norm_num))).2.2.2 (by rw [hP]; simp)
  obtain ⟨_, _, p, s', hp, hs, hpm⟩ := h
  refine ⟨hP, s', hs, ?_⟩
  have hidx : PickedIndex sampleToolkit (drawsAt (3 / 25)) = 0 := rfl
  rw [hP, hidx] at hp
  cases hp
  rw [hpm]; rfl

/-- C2: in relative-chances mode a slider change preserves the total. For a list
of at least two distinct reference meshes whose percents lie in `[0, 100]` and
sum to 100, and a new value `v` in `[0, 100]` for a listed mesh that is not
flagged `bIsAdjusting`, the percents sum to 100 again in every state the
handler returns; and the handler does return whenever the closing
`SetRandomMesh` has a selected index inside the list and valid draws. -/
theorem slider_relative_total_preserved (s : Toolkit) (InItem : Ptr) (v : ℚ)
    (g : FRandomDraws)
    (hrel : s.bIsPercentRelative = true)
    (hlen : 2 ≤ s.ReferenceMeshes.length)
    (hnd : s.ReferenceMeshes.Nodup)
    (hmem : InItem ∈ s.ReferenceMeshes)
    (hrange : ∀ p ∈ s.ReferenceMeshes, 0 ≤ (s.Objects p).Percent ∧ (s.Objects p).Percent ≤ 100)
    (hsum : TotalPercent s = 100)
    (hv0 : 0 ≤ v) (hv1 : v ≤ 100)
    (hadj : (s.Objects InItem).bIsAdjusting = false) :
    (∀ s', SliderOnValueChanged s InItem v g = some s' → TotalPercent s' = 100) ∧
    ((s.bUseSelected = true → s.SelectedMeshIndex < s.ReferenceMeshes.length) → g.Valid →
      ∃ s', SliderOnValueChanged s InItem v g = some s') := by
  refine ⟨?_, fun hsel hg => SliderOnValueChanged_isSome s InItem v g hsel hg⟩
  intro s' h
  obtain ⟨hl, ho⟩ := SliderOnValueChanged_frame s InItem v g s' h
  unfold SliderObjects at ho
  rw [if_pos ⟨hrel, hadj, by omega⟩] at ho
  simp only [] at ho
  set H0 := Function.update s.Objects InItem { s.Objects InItem with Percent := v } with hH0
  set d := (s.Objects InItem).Percent - v with hd
  have hother : ∀ p, p ≠ InItem → H0 p = s.Objects p := fun p hp => Function.update_noteq hp _ _
  have hO0 : OthersPercent InItem H0 s.ReferenceMeshes =
      OthersPercent InItem s.Objects s.ReferenceMeshes :=
    OthersPercent_congr _ _ _ _ (fun p _ hp => by rw [hother p hp])
  have hsplit := TotalPercent_split InItem s.Objects s.ReferenceMeshes hnd hmem
  unfold TotalPercent at hsum
  rw [hsum] at hsplit
  have hcons := Redistribute_conserves InItem s.ReferenceMeshes H0 d hnd
  obtain ⟨q, hq, hqi⟩ : ∃ q ∈ s.ReferenceMeshes, q ≠ InItem := by
    by_contra hcon
    push_neg at hcon
    have : s.ReferenceMeshes = List.replicate s.ReferenceMeshes.length InItem :=
      List.eq_replicate_iff.2 ⟨rfl, hcon⟩
    rw [this] at hnd
    have := List.nodup_replicate.1 hnd
    omega
  have hn : (1 : ℚ) ≤ ((s.ReferenceMeshes.filter (fun p => decide (p ≠ InItem))).length : ℚ) := by
    have : 0 < (s.ReferenceMeshes.filter (fun p => decide (p ≠ InItem))).length :=
      List.length_pos_of_mem (List.mem_filter.2 ⟨hq, by simpa using hqi⟩)
    exact_mod_cast this
  have hzero := Redistribute_carry_zero InItem s.ReferenceMeshes H0 d hnd
    (fun p hp hpi => by rw [hother p hpi]; exact hrange p hp)
    (by rw [hO0]; linarith)
    (by rw [OthersRoom_eq, hO0]; linarith)
  rw [hzero] at hcons
  unfold TotalPercent
  rw [hl, ho, TotalPercent_split InItem _ s.ReferenceMeshes hnd hmem,
    Redistribute_frame InItem _ _ _ InItem (Or.inr rfl)]
  have hv' : (H0 InItem).Percent = v := by simp [hH0]
  rw [hv']
  linarith

/-- C2 (witness): moving the first slider from 60 to 50 with the other at 40. -/
theorem slider_relative_total_preserved_witness :
    TotalPercent relativeToolkit = 100 ∧
    ∃ s', SliderOnValueChanged relativeToolkit 0 50 (drawsAt (1 / 2)) = some s' ∧
      TotalPercent s' = 100 := by
  have hsum : TotalPercent relativeToolkit = 100 := by
    norm_num [TotalPercent, relativeToolkit]
  have hrange : ∀ p ∈ relativeToolkit.ReferenceMeshes,
      0 ≤ (relativeToolkit.Objects p).Percent ∧ (relativeToolkit.Objects p).Percent ≤ 100 := by
    intro p hp
    have hp' : p = 0 ∨ p = 1 := by simpa [relativeToolkit] using hp
    rcases hp' with rfl | rfl <;> norm_num [relativeToolkit]
  have h := slider_relative_total_preserved relativeToolkit 0 50 (drawsAt (1 / 2)) rfl
    (by decide) (by decide) (by decide) hrange hsum (by norm_num) (by norm_num) rfl
  obtain ⟨s', hs'⟩ := h.2 (fun hsel => by cases hsel)
    (drawsAt_valid _ (by norm_num) (by norm_num))
  exact ⟨hsum, s', hs', h.1 s' hs'⟩

/-- C3: a slider change never pushes a percent out of range. For a list whose
percents all lie in `[0, 100]` and any new slider value `v`, relative mode on
or off, in every state the handler returns the changed mesh holds `v` and every
other listed mesh still holds a percent in `[0, 100]`; and the handler does
return whenever the closing `SetRandomMesh` has a selected index inside the
list and valid draws. -/
theorem slider_percents_in_range (s : Toolkit) (InItem : Ptr) (v : ℚ) (g : FRandomDraws)
    (hrange : ∀ p ∈ s.ReferenceMeshes, 0 ≤ (s.Objects p).Percent ∧ (s.Objects p).Percent ≤ 100) :
    (∀ s', SliderOnValueChanged s InItem v g = some s' →
      (s'.Objects InItem).Percent = v ∧
      ∀ p ∈ s'.ReferenceMeshes, p ≠ InItem →
        0 ≤ (s'.Objects p).Percent ∧ (s'.Objects p).Percent ≤ 100) ∧
    ((s.bUseSelected = true → s.SelectedMeshIndex < s.ReferenceMeshes.length) → g.Valid →
      ∃ s', SliderOnValueChanged s InItem v g = some s') := by
  refine ⟨?_, fun hsel hg => SliderOnValueChanged_isSome s InItem v g hsel hg⟩
  intro s' h
  obtain ⟨hl, ho⟩ := SliderOnValueChanged_frame s InItem v g s' h
  rw [hl, ho]
  unfold SliderObjects
  simp only []
  split_ifs
  · constructor
    · rw [Redistribute_frame InItem _ _ _ InItem (Or.inr rfl)]
      simp
    · intro p hp hpi
      apply Redistribute_range
      rw [Function.update_noteq hpi]
      exact hrange p hp
  · constructor
    · simp
    · intro p hp hpi
      rw [Function.update_noteq hpi]
      exact hrange p hp

/-- C3 (witness): with relative chances off, moving the first slider of the
sample list to 50 leaves the other two percents in range. -/
theorem slider_percents_in_range_witness :
    ∃ s', SliderOnValueChanged sampleToolkit 0 50 (drawsAt (1 / 2)) = some s' ∧
      (s'.Objects 0).Percent = 50 ∧
      ∀ p ∈ s'.ReferenceMeshes, p ≠ 0 →
        0 ≤ (s'.Objects p).Percent ∧ (s'.Objects p).Percent ≤ 100 := by
  have hrange : ∀ p ∈ sampleToolkit.ReferenceMeshes,
      0 ≤ (sampleToolkit.Objects p).Percent ∧ (sampleToolkit.Objects p).Percent ≤ 100 := by
    intro p hp
    have hp' : p = 0 ∨ p = 1 ∨ p = 2 := by simpa [sampleToolkit] using hp
    rcases hp' with rfl | rfl | rfl <;> norm_num [sampleToolkit, sampleObjects]
  have h := slider_percents_in_range sampleToolkit 0 50 (drawsAt (1 / 2)) hrange
  obtain ⟨s', hs'⟩ := h.2 (fun hsel => by cases hsel)
    (drawsAt_valid _ (by norm_num) (by norm_num))
  exact ⟨s', hs', h.1 s' hs'⟩

/-- C4 (failing input): the only reference mesh has percent 0 and the roll is
0.5; the truncated roll is 0, the test `Percent >= Rand` passes and the mesh
is picked. -/
theorem setRandomMesh_picks_zero_percent :
    (drawsAt (1 / 200)).Valid ∧
    zeroPercentToolkit.bUseSelected = false ∧
    zeroPercentToolkit.ReferenceMeshes = [0] ∧
    (zeroPercentToolkit.Objects 0).Percent = 0 ∧
    (zeroPercentToolkit.Objects 0).StaticMesh = some meshA ∧
    zeroPercentToolkit.PickedMesh = none ∧
    FRandRange 0 100 (drawsAt (1 / 200)).Roll = 1 / 2 ∧
    TruncToInt (1 / 2) = 0 ∧
    (SetRandomMesh zeroPercentToolkit (drawsAt (1 / 200))).map (fun t => t.PickedMesh)
      = some (some meshA) := by
  refine ⟨drawsAt_valid _ (by norm_num) (by norm_num), rfl, rfl, rfl, rfl, rfl, ?_, ?_, ?_⟩
  · norm_num [FRandRange, drawsAt]
  · decide!
  · decide!

/-- C5: with 'Use Selected' off, a changed `PickedMesh` is the static mesh of a
listed entry with a valid asset and percent at least the truncated roll. The
list the integer draw ranges over is exactly the list of those entries, in list
order: its length is their number, every listed entry that passes the test
occupies a position `0..count-1` and is picked by the draw of that position,
and an entry failing the test is not in it. -/
theorem setRandomMesh_changed_pick_eligible (s : Toolkit) (g : FRandomDraws)
    (hsel : s.bUseSelected = false) :
    (∀ s', SetRandomMesh s g = some s' → s'.PickedMesh ≠ s.PickedMesh →
      ∃ (k : ℕ) (p : Ptr), PickedIndex s g = (k : ℤ) ∧ k < (PickedMeshes s g).length ∧
        (PickedMeshes s g)[k]? = some p ∧ p ∈ s.ReferenceMeshes ∧
        IsValid (s.Objects p).StaticMesh = true ∧
        ((TruncToInt (FRandRange 0 100 g.Roll) : ℤ) : ℚ) ≤ (s.Objects p).Percent ∧
        s'.PickedMesh = (s.Objects p).StaticMesh) ∧
    (g.Valid → PickedMeshes s g ≠ [] →
      0 ≤ PickedIndex s g ∧ PickedIndex s g ≤ ((PickedMeshes s g).length : ℤ) - 1) ∧
    (∀ k p, (PickedMeshes s g)[k]? = some p →
      (g.Valid → (drawIndex g k).Valid) ∧ (drawIndex g k).Roll = g.Roll ∧
      PickedIndex s (drawIndex g k) = (k : ℤ) ∧
      ∃ s', SetRandomMesh s (drawIndex g k) = some s' ∧
        s'.PickedMesh = (s.Objects p).StaticMesh) ∧
    (∀ p ∈ s.ReferenceMeshes,
      (IsValid (s.Objects p).StaticMesh = false ∨
        (s.Objects p).Percent < ((TruncToInt (FRandRange 0 100 g.Roll) : ℤ) : ℚ)) →
      p ∉ PickedMeshes s g) ∧
    PickedMeshes s g = s.ReferenceMeshes.filter (fun p =>
      IsValid (s.Objects p).StaticMesh &&
        decide (((TruncToInt (FRandRange 0 100 g.Roll) : ℤ) : ℚ) ≤ (s.Objects p).Percent)) ∧
    (PickedMeshes s g).length = s.ReferenceMeshes.countP (fun p =>
      IsValid (s.Objects p).StaticMesh &&
        decide (((TruncToInt (FRandRange 0 100 g.Roll) : ℤ) : ℚ) ≤ (s.Objects p).Percent)) ∧
    (∀ p ∈ s.ReferenceMeshes, IsValid (s.Objects p).StaticMesh = true →
      ((TruncToInt (FRandRange 0 100 g.Roll) : ℤ) : ℚ) ≤ (s.Objects p).Percent →
      ∃ k : ℕ, k < (PickedMeshes s g).length ∧ (PickedMeshes s g)[k]? = some p ∧
        PickedIndex s (drawIndex g k) = (k : ℤ) ∧
        ∃ s', SetRandomMesh s (drawIndex g k) = some s' ∧
          s'.PickedMesh = (s.Objects p).StaticMesh) := by
  have hreach : ∀ (k : ℕ) (p : Ptr), (PickedMeshes s g)[k]? = some p →
      PickedIndex s (drawIndex g k) = (k : ℤ) ∧
      ∃ s', SetRandomMesh s (drawIndex g k) = some s' ∧
        s'.PickedMesh = (s.Objects p).StaticMesh := by
    intro k p hk
    have hlt : k < (PickedMeshes s g).length := (List.getElem?_eq_some_iff.1 hk).1
    have hP : PickedMeshes s (drawIndex g k) = PickedMeshes s g := rfl
    have hidx : PickedIndex s (drawIndex g k) = (k : ℤ) := by
      unfold PickedIndex
      rw [hP]
      show max (0 : ℤ) (min (((PickedMeshes s g).length : ℤ) - 1) (k : ℤ)) = (k : ℤ)
      rw [min_eq_right (by omega), max_eq_right (by omega)]
    refine ⟨hidx, ?_⟩
    refine ⟨RollTransform { s with PickedMesh := (s.Objects p).StaticMesh } (drawIndex g k),
      ?_, rfl⟩
    rw [SetRandomMesh_random s _ hsel, hP, if_neg (by omega), hidx]
    have : TArrayAt (PickedMeshes s g) (k : ℤ) = some p := by
      simp [TArrayAt, hk]
    rw [this]; rfl
  refine ⟨?_, ?_, ?_, ?_, PickedMeshes_eq_filter s g, ?_, ?_⟩
  · intro s' h hch
    rw [SetRandomMesh_random s g hsel] at h
    split_ifs at h with h0
    · cases h; exact absurd rfl hch
    · rw [Option.map_eq_some'] at h
      obtain ⟨p, hp, rfl⟩ := h
      obtain ⟨hnn, hlt, hget⟩ := TArrayAt_eq_some _ _ _ hp
      have hmem : p ∈ PickedMeshes s g := List.getElem?_mem hget
      obtain ⟨m1, m2, m3⟩ := (mem_PickedMeshes s g p).1 hmem
      exact ⟨(PickedIndex s g).toNat, p, (Int.toNat_of_nonneg hnn).symm, hlt, hget, m1, m2, m3, rfl⟩
  · intro hg hne
    have hne' : (PickedMeshes s g).length ≠ 0 := fun h0 => hne (List.length_eq_zero.1 h0)
    obtain ⟨h0, h1⟩ := PickedIndex_range s g hg hne'
    exact ⟨h0, by omega⟩
  · intro k p hk
    obtain ⟨h1, h2⟩ := hreach k p hk
    exact ⟨drawIndex_valid g k, rfl, h1, h2⟩
  · intro p _ hbad hmem
    obtain ⟨_, m2, m3⟩ := (mem_PickedMeshes s g p).1 hmem
    rcases hbad with hb | hb
    · rw [hb] at m2; cases m2
    · exact absurd m3 (not_le.2 hb)
  · rw [PickedMeshes_eq_filter, List.countP_eq_length_filter]
  · intro p hp hv hle
    have hmem : p ∈ PickedMeshes s g := (mem_PickedMeshes s g p).2 ⟨hp, hv, hle⟩
    obtain ⟨k, hk⟩ := List.mem_iff_getElem?.1 hmem
    obtain ⟨h1, h2⟩ := hreach k p hk
    exact ⟨k, (List.getElem?_eq_some_iff.1 hk).1, hk, h1, h2⟩

/-- C5 (witness): at the sample toolkit with roll 12 the pick changes from
nothing to the third mesh. -/
theorem setRandomMesh_changed_pick_eligible_witness :
    sampleToolkit.bUseSelected = false ∧
    ∃ s', SetRandomMesh sampleToolkit (drawsAt (3 / 25)) = some s' ∧
      s'.PickedMesh ≠ sampleToolkit.PickedMesh ∧
      ∃ p ∈ sampleToolkit.ReferenceMeshes, s'.PickedMesh = (sampleToolkit.Objects p).StaticMesh := by
  refine ⟨rfl, ?_⟩
  obtain ⟨s', hs'⟩ := SetRandomMesh_isSome sampleToolkit (drawsAt (3 / 25))
    (fun h => by cases h) (drawsAt_valid _ (by norm_num) (by norm_num))
  have hpm : (SetRandomMesh sampleToolkit (drawsAt (3 / 25))).map (fun t => t.PickedMesh)
      = some (some meshC) := by decide!
  rw [hs'] at hpm
  have hpm' : s'.PickedMesh = some meshC := by simpa using hpm
  have hch : s'.PickedMesh ≠ sampleToolkit.PickedMesh := by
    rw [hpm']; exact fun h => by cases h
  obtain ⟨k, p, _, _, _, hmem, _, _, hp⟩ :=
    (setRandomMesh_changed_pick_eligible sampleToolkit (drawsAt (3 / 25)) rfl).1 s' hs' hch
  exact ⟨s', hs', hch, p, hmem, hp⟩

/-- C6: with an editor mode attached, `BakeToInstanceMesh(b)` takes the selected
primitives for `b = true` and the spawned components for `b = false`; for a
non-empty list it calls `MergeComponentsToInstances` once, on that list,
between one `BeginTransaction` and one `EndTransaction`; for an empty list it
makes none of these three calls. -/
theorem bakeToInstanceMesh_delegates (s : Toolkit) (EdMode : FPhysicalLayoutMode) (b : Bool)
    (hed : s.EdMode = some EdMode) :
    (BakeToInstanceMesh s b).Calls = s.Calls ++ NewCalls s (BakeToInstanceMesh s b) ∧
    (Call.GetSelectedPrimitives ∈ NewCalls s (BakeToInstanceMesh s b) ↔ b = true) ∧
    (Call.GetSpawnedComponents ∈ NewCalls s (BakeToInstanceMesh s b) ↔ b = false) ∧
    (BakedComponents EdMode b ≠ [] →
      (NewCalls s (BakeToInstanceMesh s b)).count
        (Call.MergeComponentsToInstances (BakedComponents EdMode b)) = 1 ∧
      (∀ l, Call.MergeComponentsToInstances l ∈ NewCalls s (BakeToInstanceMesh s b) →
        l = BakedComponents EdMode b) ∧
      (NewCalls s (BakeToInstanceMesh s b)).count Call.BeginTransaction = 1 ∧
      (NewCalls s (BakeToInstanceMesh s b)).count Call.EndTransaction = 1 ∧
      ∃ pre mid post,
        Call.BeginTransaction ∉ pre ∧ Call.EndTransaction ∉ mid ∧
        NewCalls s (BakeToInstanceMesh s b) = pre ++ [Call.BeginTransaction] ++ mid ++
          [Call.MergeComponentsToInstances (BakedComponents EdMode b),
           Call.EndTransaction] ++ post) ∧
    (BakedComponents EdMode b = [] →
      (∀ l, Call.MergeComponentsToInstances l ∉ NewCalls s (BakeToInstanceMesh s b)) ∧
      Call.BeginTransaction ∉ NewCalls s (BakeToInstanceMesh s b) ∧
      Call.EndTransaction ∉ NewCalls s (BakeToInstanceMesh s b)) := by
  have hcomps : BakedComponents EdMode b
      = if b then EdMode.SelectedPrimitives else EdMode.SpawnedComponents := rfl
  generalize hc0 : BakedComponents EdMode b = comps at hcomps ⊢
  generalize hcalls0 : NewCalls s (BakeToInstanceMesh s b) = calls
  by_cases hc : comps = []
  · have hcalls : (BakeToInstanceMesh s b).Calls = s.Calls ++
        [if b then Call.GetSelectedPrimitives else Call.GetSpawnedComponents,
         Call.DestroyActors b] := by
      cases b <;> simp_all [BakeToInstanceMesh]
    have hn : calls = [if b then Call.GetSelectedPrimitives else Call.GetSpawnedComponents,
         Call.DestroyActors b] := hcalls0 ▸ NewCalls_append _ _ _ hcalls
    rw [hn]
    refine ⟨hcalls, ?_, ?_, fun h => absurd hc h, fun _ => ?_⟩
    · cases b <;> simp
    · cases b <;> simp
    · cases b <;> simp
  · have hlen : comps.length > 0 := List.length_pos.2 hc
    have hcalls : (BakeToInstanceMesh s b).Calls = s.Calls ++
        [if b then Call.GetSelectedPrimitives else Call.GetSpawnedComponents,
         Call.BeginTransaction, Call.GetWorld, Call.GetWorld,
         Call.MergeComponentsToInstances comps, Call.EndTransaction,
         Call.DestroyActors b] := by
      cases b <;> simp_all [BakeToInstanceMesh]
    have hn : calls = [if b then Call.GetSelectedPrimitives else Call.GetSpawnedComponents,
         Call.BeginTransaction, Call.GetWorld, Call.GetWorld,
         Call.MergeComponentsToInstances comps, Call.EndTransaction,
         Call.DestroyActors b] := hcalls0 ▸ NewCalls_append _ _ _ hcalls
    rw [hn]
    refine ⟨hcalls, ?_, ?_, fun _ => ⟨?_, ?_, ?_, ?_, ?_⟩, fun h => absurd h hc⟩
    · cases b <;> simp
    · cases b <;> simp
    · cases b <;> simp [List.count_cons]
    · intro l hl
      cases b <;> simpa using hl
    · cases b <;> simp [List.count_cons]
    · cases b <;> simp [List.count_cons]
    · refine ⟨[if b then Call.GetSelectedPrimitives else Call.GetSpawnedComponents],
        [Call.GetWorld, Call.GetWorld], [Call.DestroyActors b], ?_, ?_, ?_⟩
      · cases b <;> simp
      · simp
      · simp

/-- C6 (witness): baking the selection of the sample editor mode. -/
theorem bakeToInstanceMesh_delegates_witness :
    (NewCalls { sampleToolkit with EdMode := some sampleEdMode }
      (BakeToInstanceMesh { sampleToolkit with EdMode := some sampleEdMode } true)).count
        (Call.MergeComponentsToInstances [7, 8]) = 1 :=
  ((bakeToInstanceMesh_delegates { sampleToolkit with EdMode := some sampleEdMode }
    sampleEdMode true rfl).2.2.2.1 (by decide)).1

/-- C7: each toolbar command sets `CurrentLayoutMode` to its mode and
`LastLayoutMode` to the mode current before; with an editor mode attached it
calls `OnLayoutModeChange` once, with the new mode, and with none attached it
makes no call. -/
theorem executeAction_forwards_mode (E : LayoutModeNames) (s : Toolkit) (c : Command) :
    (ExecuteAction E s c).CurrentLayoutMode = c.mode E ∧
    (ExecuteAction E s c).LastLayoutMode = s.CurrentLayoutMode ∧
    (ExecuteAction E s c).Calls = s.Calls ++ NewCalls s (ExecuteAction E s c) ∧
    (s.EdMode ≠ none →
      (NewCalls s (ExecuteAction E s c)).count (Call.OnLayoutModeChange (c.mode E)) = 1 ∧
      ∀ m, Call.OnLayoutModeChange m ∈ NewCalls s (ExecuteAction E s c) → m = c.mode E) ∧
    (s.EdMode = none → NewCalls s (ExecuteAction E s c) = []) ∧
    ((∃ m, Call.OnLayoutModeChange m ∈ NewCalls s (ExecuteAction E s c)) ↔ s.EdMode ≠ none) := by
  cases hed : s.EdMode with
  | none =>
    have hcalls : (ExecuteAction E s c).Calls = s.Calls ++ [] := by
      cases c <;> simp [ExecuteAction, ChangeMode, callEdMode, hed]
    have hn := NewCalls_append _ _ _ hcalls
    rw [hn]
    refine ⟨?_, ?_, hcalls, fun h => absurd rfl h, fun _ => rfl, ?_⟩
    · cases c <;> simp [ExecuteAction, ChangeMode, callEdMode, hed, Command.mode]
    · cases c <;> simp [ExecuteAction, ChangeMode, callEdMode, hed, GetCurrentLayoutMode]
    · simp
  | some e =>
    have hcalls : (ExecuteAction E s c).Calls = s.Calls ++
        [Call.OnLayoutModeChange (c.mode E),
         if c = Command.Paint then Call.RegisterBrush else Call.UnregisterBrush] := by
      cases c <;> simp [ExecuteAction, ChangeMode, callEdMode, hed, Command.mode]
    have hn := NewCalls_append _ _ _ hcalls
    rw [hn]
    refine ⟨?_, ?_, hcalls, fun _ => ⟨?_, ?_⟩, fun h => (by cases h), ?_⟩
    · cases c <;> simp [ExecuteAction, ChangeMode, callEdMode, hed, Command.mode]
    · cases c <;> simp [ExecuteAction, ChangeMode, callEdMode, hed, GetCurrentLayoutMode]
    · cases c <;> simp [List.count_cons]
    · intro m hm
      cases c <;> simpa using hm
    · simp

/-- C7 (witness): the Paint command on the sample toolkit with an editor mode
attached. -/
theorem executeAction_forwards_mode_witness :
    (ExecuteAction sampleNames { sampleToolkit with EdMode := some sampleEdMode }
      Command.Paint).CurrentLayoutMode = "Paint" ∧
    (NewCalls { sampleToolkit with EdMode := some sampleEdMode }
      (ExecuteAction sampleNames { sampleToolkit with EdMode := some sampleEdMode }
        Command.Paint)).count (Call.OnLayoutModeChange "Paint") = 1 :=
  ⟨(executeAction_forwards_mode sampleNames
      { sampleToolkit with EdMode := some sampleEdMode } Command.Paint).1,
   ((executeAction_forwards_mode sampleNames
      { sampleToolkit with EdMode := some sampleEdMode } Command.Paint).2.2.2.1
        (by simp)).1⟩

/-- C8: with 'Use Selected' on, a valid selected index makes `SetRandomMesh`
pick the static mesh of that entry whatever the draws and the percents are; a
negative index leaves `PickedMesh` unchanged. -/
theorem setRandomMesh_useSelected_pick (s : Toolkit) (g : FRandomDraws)
    (hsel : s.bUseSelected = true) :
    (∀ p, 0 ≤ s.SelectedMeshIndex →
      s.ReferenceMeshes[s.SelectedMeshIndex.toNat]? = some p →
      ∃ s', SetRandomMesh s g = some s' ∧ s'.PickedMesh = (s.Objects p).StaticMesh) ∧
    (s.SelectedMeshIndex < 0 →
      ∃ s', SetRandomMesh s g = some s' ∧ s'.PickedMesh = s.PickedMesh) := by
  constructor
  · intro p h0 hp
    refine ⟨RollTransform { s with PickedMesh := (s.Objects p).StaticMesh } g, ?_, rfl⟩
    rw [SetRandomMesh_useSelected s g hsel, if_pos h0]
    have : TArrayAt s.ReferenceMeshes s.SelectedMeshIndex = some p := by
      simp [TArrayAt, h0, hp]
    rw [this]; rfl
  · intro hneg
    refine ⟨RollTransform s g, ?_, rfl⟩
    rw [SetRandomMesh_useSelected s g hsel, if_neg (by omega)]

/-- C8 (witness): selecting index 1 of the sample list picks the second mesh,
although its percent 5 is below the roll 12. -/
theorem setRandomMesh_useSelected_pick_witness :
    ∃ s', SetRandomMesh { sampleToolkit with bUseSelected := true, SelectedMeshIndex := 1 }
        (drawsAt (3 / 25)) = some s' ∧ s'.PickedMesh = some meshB :=
  (setRandomMesh_useSelected_pick
    { sampleToolkit with bUseSelected := true, SelectedMeshIndex := 1 } (drawsAt (3 / 25)) rfl).1
    1 (by decide) rfl

/-- C9 (counterexample): min distance 2, radius 3 and scale `(2, 2, 1)` of size 3
give 18, not 2 * 3 = 6. The square root is the exact rational one. -/
theorem getMinDistance_not_radius_multiple :
    scaledToolkit.PickedMesh = some meshA ∧
    scaledToolkit.fMinDistance = 2 ∧ meshA.SphereRadius = 3 ∧
    scaledToolkit.ScaleRandom.Size Rat.sqrt = 3 ∧
    GetMinDistance Rat.sqrt scaledToolkit = 18 ∧
    GetMinDistance Rat.sqrt scaledToolkit ≠ scaledToolkit.fMinDistance * meshA.SphereRadius := by
  have h3 : Rat.sqrt 9 = 3 := by
    rw [show (9 : ℚ) = 3 * 3 by norm_num, Rat.sqrt_eq]
    exact abs_of_pos (by norm_num)
  have hsize : scaledToolkit.ScaleRandom.Size Rat.sqrt = 3 := by
    have : scaledToolkit.ScaleRandom = ⟨2, 2, 1⟩ := rfl
    rw [this]
    norm_num [FVector.Size, h3]
  have hval : GetMinDistance Rat.sqrt scaledToolkit = 18 := by
    have : GetMinDistance Rat.sqrt scaledToolkit =
        2 * scaledToolkit.ScaleRandom.Size Rat.sqrt * 3 := rfl
    rw [this, hsize]; norm_num
  refine ⟨rfl, rfl, rfl, hsize, hval, ?_⟩
  rw [hval]
  have : scaledToolkit.fMinDistance * meshA.SphereRadius = 2 * 3 := rfl
  rw [this]; norm_num

/-- C9 (amended): when a mesh is picked, `GetMinDistance` is the configured min
distance times the radius of the picked mesh times the size of `ScaleRandom`;
it equals min distance times radius exactly when that size is 1 or the
product is 0. -/
theorem getMinDistance_scaled (Sqrt : ℚ → ℚ) (s : Toolkit) (m : UStaticMesh)
    (h : s.PickedMesh = some m) :
    GetMinDistance Sqrt s = s.fMinDistance * m.SphereRadius * s.ScaleRandom.Size Sqrt ∧
    s.ScaleRandom.Size Sqrt
      = Sqrt (s.ScaleRandom.X * s.ScaleRandom.X + s.ScaleRandom.Y * s.ScaleRandom.Y
          + s.ScaleRandom.Z * s.ScaleRandom.Z) ∧
    (GetMinDistance Sqrt s = s.fMinDistance * m.SphereRadius ↔
      (s.ScaleRandom.Size Sqrt = 1 ∨ s.fMinDistance * m.SphereRadius = 0)) := by
  have hval : GetMinDistance Sqrt s
      = s.fMinDistance * m.SphereRadius * s.ScaleRandom.Size Sqrt := by
    unfold GetMinDistance GetRandomMesh
    rw [h]
    ring
  refine ⟨hval, rfl, ?_⟩
  rw [hval]
  constructor
  · intro heq
    by_cases h0 : s.fMinDistance * m.SphereRadius = 0
    · exact Or.inr h0
    · left
      have : s.fMinDistance * m.SphereRadius * (s.ScaleRandom.Size Sqrt - 1) = 0 := by
        linarith
      rcases mul_eq_zero.1 this with h1 | h1
      · exact absurd h1 h0
      · linarith
  · rintro (h1 | h1)
    · rw [h1]; ring
    · rw [h1]; ring

/-- C9 (witness): the amended statement at the scaled sample toolkit. -/
theorem getMinDistance_scaled_witness :
    GetMinDistance Rat.sqrt scaledToolkit
      = scaledToolkit.fMinDistance * meshA.SphereRadius
          * scaledToolkit.ScaleRandom.Size Rat.sqrt :=
  (getMinDistance_scaled Rat.sqrt scaledToolkit meshA rfl).1

/-- C10: `ChangeMode(int)` steps the mode index by `d` modulo the number of
layout modes, with wrap-around in both directions, and `Init` supplies the four
modes so that the modulus is not zero. -/
theorem changeModeInt_cycles (E : LayoutModeNames) (fresh : FReferenceMesh) (members : Toolkit) :
    (Init E fresh (Construct E members)).LayoutModes
      = [E.Select, E.PaintSelect, E.Transform, E.Paint] ∧
    ∀ (s : Toolkit) (d : ℤ), s.LayoutModes.length = 4 →
      -2147483648 ≤ s.LayoutModeIndex + d → s.LayoutModeIndex + d ≤ 2147483647 →
      ∃ s', ChangeModeInt s d = some s' ∧
        s'.LayoutModeIndex = (s.LayoutModeIndex + d) % 4 ∧
        0 ≤ s'.LayoutModeIndex ∧ s'.LayoutModeIndex ≤ 3 ∧
        s'.LayoutModes = s.LayoutModes ∧
        s'.LayoutModes[s'.LayoutModeIndex.toNat]? = some s'.CurrentLayoutMode := by
  refine ⟨rfl, ?_⟩
  intro s d hlen hlo hhi
  have hw := wrap32_of_range _ hlo hhi
  obtain ⟨b1, b2, b3⟩ := tmod_pos_bounds (s.LayoutModeIndex + d) 4 (by norm_num)
  have hw2 : wrap32 (4 + (s.LayoutModeIndex + d).tmod 4) = 4 + (s.LayoutModeIndex + d).tmod 4 :=
    wrap32_of_range _ (by omega) (by omega)
  have ht : (4 + (s.LayoutModeIndex + d).tmod 4).tmod 4 = (s.LayoutModeIndex + d) % 4 := by
    rw [Int.tmod_eq_emod (by omega) (by norm_num), b3]
  have hr0 : 0 ≤ (s.LayoutModeIndex + d) % 4 := Int.emod_nonneg _ (by norm_num)
  have hr1 : (s.LayoutModeIndex + d) % 4 < 4 := Int.emod_lt_of_pos _ (by norm_num)
  obtain ⟨m, hm, hm'⟩ := TArrayAt_some s.LayoutModes ((s.LayoutModeIndex + d) % 4) hr0
    (by rw [hlen]; exact_mod_cast hr1)
  refine ⟨ChangeMode { s with LayoutModeIndex := (s.LayoutModeIndex + d) % 4,
                              LastLayoutMode := s.CurrentLayoutMode } m, ?_, ?_⟩
  · simp only [ChangeModeInt, cppMod, hlen, hw]
    norm_num
    simp only [hw2, ht]
    rw [if_pos ⟨hr0, hr1⟩, hm]
    rfl
  · obtain ⟨c1, c2, c3, _⟩ := ChangeMode_LayoutModes
      { s with LayoutModeIndex := (s.LayoutModeIndex + d) % 4,
               LastLayoutMode := s.CurrentLayoutMode } m
    rw [c1, c2, c3]
    exact ⟨rfl, hr0, Int.lt_add_one_iff.1 hr1, rfl, hm'⟩

/-- C10 (witness): from index 0 one step back lands on index 3, the mode
"Paint". -/
theorem changeModeInt_cycles_witness :
    ∃ s', ChangeModeInt sampleToolkit (-1) = some s' ∧ s'.LayoutModeIndex = 3 ∧
      s'.CurrentLayoutMode = "Paint" := by
  obtain ⟨s', h, hi, _, _, hl, hm⟩ :=
    (changeModeInt_cycles sampleNames freshMesh sampleToolkit).2 sampleToolkit (-1)
      rfl (by decide) (by decide)
  have hi' : s'.LayoutModeIndex = 3 := by rw [hi]; rfl
  refine ⟨s', h, hi', ?_⟩
  rw [hl, hi'] at hm
  have : sampleToolkit.LayoutModes[(3 : ℤ).toNat]? = some "Paint" := rfl
  rw [this] at hm
  exact (Option.some.inj hm).symm

/-! ## Lemmas on the list handlers, the check boxes and the scale rows -/

theorem eraseIdx_indexOf (l : List Ptr) (x : Ptr) (h : x ∈ l) :
    ∃ pre post, l = pre ++ x :: post ∧ x ∉ pre ∧ l.eraseIdx (l.indexOf x) = pre ++ post := by
  induction l with
  | nil => simp at h
  | cons a t ih =>
    by_cases hax : a = x
    · subst hax
      exact ⟨[], t, rfl, by simp, by simp⟩
    · have hx : x ∈ t := by
        rcases List.mem_cons.1 h with h1 | h1
        · exact absurd h1.symm hax
        · exact h1
      obtain ⟨pre, post, h1, h2, h3⟩ := ih hx
      refine ⟨a :: pre, post, by rw [h1]; rfl, ?_, ?_⟩
      · simp only [List.mem_cons, not_or]
        exact ⟨fun h => hax h.symm, h2⟩
      · rw [List.indexOf_cons_ne _ hax, List.eraseIdx_cons_succ, h3]
        rfl

theorem TArrayFind_mem (l : List Ptr) (x : Ptr) (h : x ∈ l) :
    TArrayFind l x = (l.indexOf x : ℤ) ∧ 0 ≤ TArrayFind l x ∧ TArrayFind l x < l.length := by
  unfold TArrayFind
  rw [if_pos h]
  refine ⟨rfl, by omega, ?_⟩
  exact_mod_cast List.indexOf_lt_length.2 h

theorem TArrayFind_not_mem (l : List Ptr) (x : Ptr) (h : x ∉ l) : TArrayFind l x = -1 := by
  unfold TArrayFind
  rw [if_neg h]

theorem TArrayFind_range (l : List Ptr) (x : Ptr) :
    TArrayFind l x < 0 ∨ (0 ≤ TArrayFind l x ∧ TArrayFind l x < l.length) := by
  by_cases h : x ∈ l
  · exact Or.inr (TArrayFind_mem l x h).2
  · left; rw [TArrayFind_not_mem l x h]; decide

theorem OnDeleteClicked_short (s : Toolkit) (InItem : Ptr) (h : s.ReferenceMeshes.length ≤ 1) :
    OnDeleteClicked s InItem = s := by
  unfold OnDeleteClicked
  rw [if_neg (by omega)]

theorem OnDeleteClicked_absent (s : Toolkit) (InItem : Ptr) (h : InItem ∉ s.ReferenceMeshes) :
    OnDeleteClicked s InItem = s := by
  unfold OnDeleteClicked
  simp only [TArrayFind_not_mem _ _ h]
  split_ifs with h1 h2
  · exact absurd h2 (by decide)
  · rfl
  · rfl

theorem OnDeleteClicked_present (s : Toolkit) (InItem : Ptr)
    (hlen : 1 < s.ReferenceMeshes.length) (h : InItem ∈ s.ReferenceMeshes) :
    ∃ pre post, s.ReferenceMeshes = pre ++ InItem :: post ∧ InItem ∉ pre ∧
      OnDeleteClicked s InItem = { s with ReferenceMeshes := pre ++ post } := by
  obtain ⟨pre, post, h1, h2, h3⟩ := eraseIdx_indexOf s.ReferenceMeshes InItem h
  obtain ⟨f1, f2, _⟩ := TArrayFind_mem s.ReferenceMeshes InItem h
  refine ⟨pre, post, h1, h2, ?_⟩
  unfold OnDeleteClicked
  simp only []
  rw [if_pos hlen, if_pos f2]
  unfold TArrayRemoveAt
  rw [f1, Int.toNat_ofNat, h3]

theorem OnDeleteClicked_length (s : Toolkit) (InItem : Ptr) (h : 1 ≤ s.ReferenceMeshes.length) :
    1 ≤ (OnDeleteClicked s InItem).ReferenceMeshes.length := by
  by_cases hlen : 1 < s.ReferenceMeshes.length
  · by_cases hm : InItem ∈ s.ReferenceMeshes
    · obtain ⟨pre, post, h1, _, h3⟩ := OnDeleteClicked_present s InItem hlen hm
      rw [h3]
      rw [h1] at hlen
      simp only [List.length_append, List.length_cons] at hlen ⊢
      omega
    · rw [OnDeleteClicked_absent s InItem hm]; exact h
  · rw [OnDeleteClicked_short s InItem (by omega)]; exact h

theorem OnAddClicked_list (fresh : FReferenceMesh) (s : Toolkit) :
    (OnAddClicked fresh s).ReferenceMeshes = s.ReferenceMeshes ++ [s.NextPtr] := rfl

theorem HandleEvents_listEdit_length (fresh : FReferenceMesh) (es : List UIEvent) :
    ∀ s : Toolkit, 1 ≤ s.ReferenceMeshes.length → (∀ e ∈ es, e.isListEdit = true) →
      ∃ s', HandleEvents fresh s es = some s' ∧ 1 ≤ s'.ReferenceMeshes.length := by
  induction es with
  | nil => intro s h _; exact ⟨s, rfl, h⟩
  | cons e es ih =>
    intro s h hes
    have he := hes e (List.mem_cons_self _ _)
    have hrest : ∀ e' ∈ es, e'.isListEdit = true := fun e' h' => hes e' (List.mem_cons_of_mem _ h')
    cases e with
    | AddClicked =>
      have := ih (OnAddClicked fresh s) (by rw [OnAddClicked_list]; simp) hrest
      simpa [HandleEvents, HandleEvent] using this
    | DeleteClicked InItem =>
      have := ih (OnDeleteClicked s InItem) (OnDeleteClicked_length s InItem h) hrest
      simpa [HandleEvents, HandleEvent] using this
    | SelectionChanged _ _ => simp [UIEvent.isListEdit] at he
    | SliderChanged _ _ _ => simp [UIEvent.isListEdit] at he
    | RelativeChecked _ => simp [UIEvent.isListEdit] at he
    | UseSelectedChecked _ => simp [UIEvent.isListEdit] at he

theorem Init_list (E : LayoutModeNames) (fresh : FReferenceMesh) (members : Toolkit) :
    (Init E fresh (Construct E members)).ReferenceMeshes = [members.NextPtr] ∧
    ((Init E fresh (Construct E members)).Objects members.NextPtr).Percent = 100 := by
  constructor
  · rfl
  · simp [Init, Construct]

theorem stepPercent_of_mem (q d : ℚ) (h0 : 0 ≤ q + d) (h1 : q + d < 100) :
    stepPercent q d = q + d ∧ stepCarry q d = 0 := by
  unfold stepPercent stepCarry Clamp
  constructor
  · rw [if_neg (by linarith), if_pos h1]
  · rw [if_neg (by linarith), if_neg (by linarith)]

theorem step_zero_of_range (q : ℚ) (h0 : 0 ≤ q) (h1 : q ≤ 100) :
    stepPercent q 0 = q ∧ stepCarry q 0 = 0 := by
  unfold stepPercent stepCarry Clamp
  constructor
  · rw [if_neg (by linarith)]
    split_ifs <;> linarith
  · rw [if_neg (by linarith)]
    split_ifs <;> linarith

/-- With no carry coming in and every other entry inside `[0, 100]`, the loop
changes no percent. -/
theorem Redistribute_zero (InItem : Ptr) (l : List Ptr) :
    ∀ (H : Ptr → FReferenceMesh),
      (∀ x ∈ l, x ≠ InItem → 0 ≤ (H x).Percent ∧ (H x).Percent ≤ 100) →
      ∀ x, ((Redistribute InItem l H 0).1 x).Percent = (H x).Percent := by
  induction l with
  | nil => intro H _ x; rfl
  | cons r l ih =>
    intro H hrange x
    by_cases hr : r = InItem
    · subst hr
      rw [Redistribute_cons_self]
      exact ih H (fun y hy => hrange y (List.mem_cons_of_mem _ hy)) x
    · rw [Redistribute_cons_other _ _ _ _ _ hr]
      obtain ⟨hq0, hq1⟩ := hrange r (List.mem_cons_self _ _) hr
      obtain ⟨e1, e2⟩ := step_zero_of_range _ hq0 hq1
      rw [e1, e2]
      have hsame : ∀ y, ((Function.update H r
          { H r with Percent := (H r).Percent, bIsAdjusting := false }) y).Percent
            = (H y).Percent := by
        intro y
        by_cases hy : y = r
        · subst hy; simp
        · rw [Function.update_noteq hy]
      rw [ih _ (fun y hy hyi => by
        rw [hsame y]; exact hrange y (List.mem_cons_of_mem _ hy) hyi) x, hsame x]

/-- When the first other entry can take the whole difference, it takes it and
nothing else moves, provided the remaining other entries lie in `[0, 100]`. -/
theorem Redistribute_first_absorbs (InItem r : Ptr) (l : List Ptr) :
    ∀ (H : Ptr → FReferenceMesh) (d : ℚ),
      l.find? (fun x => decide (x ≠ InItem)) = some r →
      0 ≤ (H r).Percent + d → (H r).Percent + d < 100 →
      (∀ x ∈ l, x ≠ InItem → x ≠ r → 0 ≤ (H x).Percent ∧ (H x).Percent ≤ 100) →
      ∀ x, ((Redistribute InItem l H d).1 x).Percent =
        if x = r then (H r).Percent + d else (H x).Percent := by
  induction l with
  | nil => intro H d hf; simp at hf
  | cons a l ih =>
    intro H d hf h0 h1 hrange x
    by_cases ha : a = InItem
    · subst ha
      rw [Redistribute_cons_self]
      have hf' : l.find? (fun x => decide (x ≠ a)) = some r := by
        simpa [List.find?_cons] using hf
      exact ih H d hf' h0 h1 (fun y hy => hrange y (List.mem_cons_of_mem _ hy)) x
    · have har : a = r := by
        simpa [List.find?_cons, ha] using hf
      subst har
      rw [Redistribute_cons_other _ _ _ _ _ ha]
      obtain ⟨e1, e2⟩ := stepPercent_of_mem _ _ h0 h1
      rw [e1, e2]
      rw [Redistribute_zero]
      · by_cases hx : x = a
        · subst hx; simp
        · rw [Function.update_noteq hx, if_neg hx]
      · intro y hy hyi
        by_cases hya : y = a
        · subst hya
          simp only [Function.update_same]
          exact ⟨h0, le_of_lt h1⟩
        · rw [Function.update_noteq hya]
          exact hrange y (List.mem_cons_of_mem _ hy) hyi hya

/-- Over a duplicate-free list the first other entry ends at the clamped sum of
its percent and the whole incoming difference. -/
theorem Redistribute_first_clamped (InItem r : Ptr) (l : List Ptr) :
    ∀ (H : Ptr → FReferenceMesh) (d : ℚ),
      l.find? (fun x => decide (x ≠ InItem)) = some r → l.Nodup →
      ((Redistribute InItem l H d).1 r).Percent = Clamp ((H r).Percent + d) 0 100 := by
  induction l with
  | nil => intro H d hf; simp at hf
  | cons a l ih =>
    intro H d hf hnd
    rw [List.nodup_cons] at hnd
    by_cases ha : a = InItem
    · subst ha
      rw [Redistribute_cons_self]
      have hf' : l.find? (fun x => decide (x ≠ a)) = some r := by
        simpa [List.find?_cons] using hf
      exact ih H d hf' hnd.2
    · have har : a = r := by
        simpa [List.find?_cons, ha] using hf
      subst har
      rw [Redistribute_cons_other _ _ _ _ _ ha,
        Redistribute_frame InItem l _ _ a (Or.inl hnd.1), Function.update_same]
      rfl

theorem TruncToInt_roll_le (t : ℚ) (h0 : 0 ≤ t) (h1 : t ≤ 1) :
    ((TruncToInt (FRandRange 0 100 t) : ℤ) : ℚ) ≤ 100 := by
  have hr : FRandRange 0 100 t = 100 * t := by unfold FRandRange; ring
  have hnn : 0 ≤ FRandRange 0 100 t := by rw [hr]; positivity
  unfold TruncToInt
  rw [if_pos hnn]
  calc ((⌊FRandRange 0 100 t⌋ : ℤ) : ℚ) ≤ FRandRange 0 100 t := Int.floor_le _
    _ ≤ 100 := by rw [hr]; linarith

theorem Eligible_iff (s : Toolkit) (Rand : ℤ) (p : Ptr) :
    Eligible s Rand p = true ↔
      IsValid (s.Objects p).StaticMesh = true ∧ (Rand : ℚ) ≤ (s.Objects p).Percent := by
  simp [Eligible]

theorem ExecuteAction_attached (E : LayoutModeNames) (s : Toolkit) (c : Command)
    (hed : s.EdMode ≠ none) :
    (ExecuteAction E s c).Calls
      = s.Calls ++ [Call.OnLayoutModeChange (c.mode E), c.brushCall] ∧
    (ExecuteAction E s c).EdMode = s.EdMode ∧
    (ExecuteAction E s c).CurrentLayoutMode = c.mode E := by
  cases hes : s.EdMode with
  | none => exact absurd hes hed
  | some e =>
    cases c <;>
      simp [ExecuteAction, ChangeMode, callEdMode, hes, Command.mode, Command.brushCall]

theorem LastBrushCall_append_brush (l : List Call) (a b : Call) (hb : b.isBrush = true) :
    LastBrushCall (l ++ [a, b]) = some b := by
  unfold LastBrushCall
  rw [List.filter_append]
  have : List.filter Call.isBrush [a, b] = List.filter Call.isBrush [a] ++ [b] := by
    simp only [List.filter_cons, hb, List.filter_nil, if_true]
    split_ifs <;> rfl
  rw [this, ← List.append_assoc, List.getLast?_append]
  simp

theorem Command.brushCall_isBrush (c : Command) : c.brushCall.isBrush = true := by
  cases c <;> rfl

theorem ExecuteActions_last (E : LayoutModeNames) (cs : List Command) :
    ∀ (s : Toolkit) (c : Command), s.EdMode ≠ none →
      LastBrushCall (ExecuteActions E s (c :: cs)).Calls
        = some ((c :: cs).getLast (List.cons_ne_nil _ _)).brushCall ∧
      (ExecuteActions E s (c :: cs)).CurrentLayoutMode
        = ((c :: cs).getLast (List.cons_ne_nil _ _)).mode E := by
  induction cs with
  | nil =>
    intro s c hed
    obtain ⟨h1, _, h3⟩ := ExecuteAction_attached E s c hed
    simp only [ExecuteActions, List.getLast_singleton]
    exact ⟨by rw [h1]; exact LastBrushCall_append_brush _ _ _ c.brushCall_isBrush, h3⟩
  | cons c' cs ih =>
    intro s c hed
    obtain ⟨_, h2, _⟩ := ExecuteAction_attached E s c hed
    have := ih (ExecuteAction E s c) c' (by rw [h2]; exact hed)
    simpa [ExecuteActions, List.getLast_cons] using this

theorem SetRandomMesh_reaches (s : Toolkit) (g : FRandomDraws) (s' : Toolkit)
    (h : SetRandomMesh s g = some s') (hr : ReachesTransformRoll s g) :
    ∃ m, s' = RollTransform { s with PickedMesh := m } g := by
  rcases Bool.eq_false_or_eq_true s.bUseSelected with hsel | hsel
  swap
  · rw [SetRandomMesh_random s g hsel] at h
    have hne : (PickedMeshes s g).length ≠ 0 := by
      rcases hr with hr | hr
      · rw [hsel] at hr; cases hr
      · exact fun h0 => hr (List.length_eq_zero.1 h0)
    rw [if_neg hne, Option.map_eq_some'] at h
    obtain ⟨p, _, rfl⟩ := h
    exact ⟨_, rfl⟩
  · rw [SetRandomMesh_useSelected s g hsel] at h
    split_ifs at h
    · rw [Option.map_eq_some'] at h
      obtain ⟨p, _, rfl⟩ := h
      exact ⟨_, rfl⟩
    · cases h
      exact ⟨s.PickedMesh, rfl⟩

theorem FRandRange_between (a b t : ℚ) (ht : UnitFraction t) :
    min a b ≤ FRandRange a b t ∧ FRandRange a b t ≤ max a b := by
  obtain ⟨t0, t1⟩ := ht
  unfold FRandRange
  rcases le_total a b with hab | hab
  · rw [min_eq_left hab, max_eq_right hab]
    constructor <;> nlinarith
  · rw [min_eq_right hab, max_eq_left hab]
    constructor <;> nlinarith

theorem halfDraws_valid : halfDraws.Valid :=
  ⟨⟨by norm_num [halfDraws], by norm_num [halfDraws]⟩, fun _ _ _ => le_refl _, fun _ _ h => h,
    zero_unitFractions, zero_unitFractions,
    ⟨by norm_num [halfDraws], by norm_num [halfDraws]⟩, zero_unitFractions⟩

theorem SetRandomMesh_scale_bounds (s : Toolkit) (g : FRandomDraws) (s' : Toolkit)
    (h : SetRandomMesh s g = some s') :
    s'.MinScaleRandom = s.MinScaleRandom ∧ s'.MaxScaleRandom = s.MaxScaleRandom := by
  rcases Bool.eq_false_or_eq_true s.bUseSelected with hsel | hsel
  · rw [SetRandomMesh_useSelected s g hsel] at h
    split_ifs at h
    · rw [Option.map_eq_some'] at h
      obtain ⟨p, _, rfl⟩ := h
      exact ⟨rfl, rfl⟩
    · cases h; exact ⟨rfl, rfl⟩
  · rw [SetRandomMesh_random s g hsel] at h
    split_ifs at h
    · cases h; exact ⟨rfl, rfl⟩
    · rw [Option.map_eq_some'] at h
      obtain ⟨p, _, rfl⟩ := h
      exact ⟨rfl, rfl⟩

theorem Equalize_frame (P : ℚ) (l : List Ptr) :
    ∀ (O : Ptr → FReferenceMesh) (p : Ptr), p ∉ l → Equalize P l O p = O p := by
  induction l with
  | nil => intro O p _; rfl
  | cons r l ih =>
    intro O p hp
    simp only [List.mem_cons, not_or] at hp
    rw [Equalize, ih _ p hp.2, Function.update_noteq hp.1]

theorem Equalize_mem (P : ℚ) (l : List Ptr) :
    ∀ (O : Ptr → FReferenceMesh) (p : Ptr), p ∈ l →
      (Equalize P l O p).Percent = P ∧ (Equalize P l O p).bIsAdjusting = false := by
  induction l with
  | nil => intro O p hp; simp at hp
  | cons r l ih =>
    intro O p hp
    rw [Equalize]
    by_cases hpl : p ∈ l
    · exact ih _ p hpl
    · have hpr : p = r := by
        rcases List.mem_cons.1 hp with h | h
        · exact h
        · exact absurd h hpl
      subst hpr
      rw [Equalize_frame P l _ p hpl, Function.update_same]
      exact ⟨rfl, rfl⟩

theorem Redistribute_chain (InItem : Ptr) (l : List Ptr) :
    ∀ (H : Ptr → FReferenceMesh) (d : ℚ), l.Nodup →
      (l.filter (fun p => decide (p ≠ InItem))).map
          (fun p => ((Redistribute InItem l H d).1 p).Percent)
        = CarryChain d ((l.filter (fun p => decide (p ≠ InItem))).map
            (fun p => (H p).Percent)) := by
  induction l with
  | nil => intro H d _; rfl
  | cons r l ih =>
    intro H d hnd
    rw [List.nodup_cons] at hnd
    by_cases hr : r = InItem
    · subst hr
      rw [Redistribute_cons_self]
      simp only [List.filter_cons, ne_eq, not_true_eq_false, decide_False, Bool.false_eq_true,
        if_false]
      exact ih H d hnd.2
    · rw [Redistribute_cons_other _ _ _ _ _ hr]
      have hf : List.filter (fun p => decide (p ≠ InItem)) (r :: l)
          = r :: List.filter (fun p => decide (p ≠ InItem)) l := by
        simp [List.filter_cons, hr]
      rw [hf, List.map_cons, List.map_cons, CarryChain]
      congr 1
      · rw [Redistribute_frame InItem l _ _ r (Or.inl hnd.1), Function.update_same]
        rfl
      · have := ih (Function.update H r
            { H r with Percent := stepPercent (H r).Percent d, bIsAdjusting := false })
          (stepCarry (H r).Percent d) hnd.2
        rw [this]
        congr 1
        apply List.map_congr_left
        intro p hp
        have hpl : p ∈ l := (List.mem_filter.1 hp).1
        rw [Function.update_noteq (fun (h : p = r) => hnd.1 (h ▸ hpl))]

theorem Redistribute_flag (InItem : Ptr) (l : List Ptr) :
    ∀ (H : Ptr → FReferenceMesh) (d : ℚ) (q : Ptr), (H q).bIsAdjusting = false →
      ((Redistribute InItem l H d).1 q).bIsAdjusting = false := by
  induction l with
  | nil => intro H d q h; exact h
  | cons r l ih =>
    intro H d q h
    by_cases hr : r = InItem
    · subst hr
      rw [Redistribute_cons_self]
      exact ih H d q h
    · rw [Redistribute_cons_other _ _ _ _ _ hr]
      apply ih
      by_cases hqr : q = r
      · subst hqr
        simp only [Function.update_same]
      · rw [Function.update_noteq hqr]
        exact h

theorem SetRandomMesh_NextPtr (s : Toolkit) (g : FRandomDraws) (s' : Toolkit)
    (h : SetRandomMesh s g = some s') : s'.NextPtr = s.NextPtr := by
  rcases Bool.eq_false_or_eq_true s.bUseSelected with hsel | hsel
  · rw [SetRandomMesh_useSelected s g hsel] at h
    split_ifs at h
    · rw [Option.map_eq_some'] at h
      obtain ⟨p, _, rfl⟩ := h
      rfl
    · cases h; rfl
  · rw [SetRandomMesh_random s g hsel] at h
    split_ifs at h
    · cases h; rfl
    · rw [Option.map_eq_some'] at h
      obtain ⟨p, _, rfl⟩ := h
      rfl

theorem SliderOnValueChanged_NextPtr (s : Toolkit) (InItem : Ptr) (v : ℚ) (g : FRandomDraws)
    (s' : Toolkit) (h : SliderOnValueChanged s InItem v g = some s') :
    s'.NextPtr = s.NextPtr := by
  simp only [SliderOnValueChanged, Function.update_same] at h
  split_ifs at h
  · cases h; rfl
  · have h2 := SetRandomMesh_NextPtr _ _ _ h
    exact h2
  · have h2 := SetRandomMesh_NextPtr _ _ _ h
    exact h2
  · have h2 := SetRandomMesh_NextPtr _ _ _ h
    exact h2

theorem CarryChain_zero (qs : List ℚ) (h : ∀ q ∈ qs, 0 ≤ q ∧ q ≤ 100) :
    CarryChain 0 qs = qs := by
  induction qs with
  | nil => rfl
  | cons q qs ih =>
    obtain ⟨h0, h1⟩ := h q (List.mem_cons_self _ _)
    have hc : Clamp (q + 0) 0 100 = q := by
      have := (step_zero_of_range q h0 h1).1
      simpa [stepPercent] using this
    have hd : (if q + 0 < 0 then q + 0 else if q + 0 ≥ 100 then q + 0 - 100 else 0) = (0 : ℚ) := by
      have := (step_zero_of_range q h0 h1).2
      simpa [stepCarry] using this
    rw [CarryChain, hc, hd, ih (fun x hx => h x (List.mem_cons_of_mem _ hx))]

theorem Init_wellFormed (E : LayoutModeNames) (fresh : FReferenceMesh) (members : Toolkit)
    (hf : fresh.bIsAdjusting = false) :
    ListWellFormed (Init E fresh (Construct E members)) := by
  have hl : (Init E fresh (Construct E members)).ReferenceMeshes = [members.NextPtr] := rfl
  have hn : (Init E fresh (Construct E members)).NextPtr = members.NextPtr + 1 := rfl
  have ho : (Init E fresh (Construct E members)).Objects members.NextPtr
      = { fresh with Percent := 100 } := by
    simp [Init, Construct]
  refine ⟨by rw [hl]; simp, ?_, ?_⟩
  · intro p hp
    rw [hl] at hp
    rw [hn, List.mem_singleton.1 hp]
    exact Nat.lt_succ_self _
  · intro p hp
    rw [hl] at hp
    rw [List.mem_singleton.1 hp, ho]
    exact ⟨by norm_num, by norm_num, hf⟩

theorem OnAddClicked_wellFormed (fresh : FReferenceMesh) (s : Toolkit)
    (h0 : 0 ≤ fresh.Percent) (h1 : fresh.Percent ≤ 100) (hf : fresh.bIsAdjusting = false)
    (hwf : ListWellFormed s) : ListWellFormed (OnAddClicked fresh s) := by
  obtain ⟨hnd, hlt, hobj⟩ := hwf
  have hl : (OnAddClicked fresh s).ReferenceMeshes = s.ReferenceMeshes ++ [s.NextPtr] := rfl
  have hn : (OnAddClicked fresh s).NextPtr = s.NextPtr + 1 := rfl
  have ho : (OnAddClicked fresh s).Objects = Function.update s.Objects s.NextPtr fresh := rfl
  have hnot : s.NextPtr ∉ s.ReferenceMeshes := fun h => lt_irrefl _ (hlt _ h)
  refine ⟨?_, ?_, ?_⟩
  · rw [hl]
    exact List.Nodup.append hnd (List.nodup_singleton _)
      (by
        intro x hx hx'
        rw [List.mem_singleton] at hx'
        exact hnot (hx' ▸ hx))
  · intro p hp
    rw [hl, List.mem_append, List.mem_singleton] at hp
    rw [hn]
    rcases hp with hp | hp
    · exact Nat.lt_succ_of_lt (hlt p hp)
    · rw [hp]; exact Nat.lt_succ_self _
  · intro p hp
    rw [hl, List.mem_append, List.mem_singleton] at hp
    rw [ho]
    rcases hp with hp | hp
    · rw [Function.update_noteq (fun (h : p = s.NextPtr) => hnot (h ▸ hp))]
      exact hobj p hp
    · rw [hp, Function.update_same]
      exact ⟨h0, h1, hf⟩

theorem OnDeleteClicked_wellFormed (s : Toolkit) (InItem : Ptr) (hwf : ListWellFormed s) :
    ListWellFormed (OnDeleteClicked s InItem) := by
  by_cases hlen : 1 < s.ReferenceMeshes.length
  · by_cases hm : InItem ∈ s.ReferenceMeshes
    · obtain ⟨pre, post, h1, _, h3⟩ := OnDeleteClicked_present s InItem hlen hm
      obtain ⟨hnd, hlt, hobj⟩ := hwf
      have hsub : ∀ p, p ∈ pre ++ post → p ∈ s.ReferenceMeshes := by
        intro p hp
        rw [h1]
        rw [List.mem_append] at hp ⊢
        rcases hp with hp | hp
        · exact Or.inl hp
        · exact Or.inr (List.mem_cons_of_mem _ hp)
      rw [h3]
      refine ⟨?_, fun p hp => hlt p (hsub p hp), fun p hp => hobj p (hsub p hp)⟩
      show (pre ++ post).Nodup
      rw [h1] at hnd
      exact List.Nodup.sublist
        (List.Sublist.append (List.Sublist.refl pre) (List.sublist_cons_self _ _)) hnd
    · rw [OnDeleteClicked_absent s InItem hm]; exact hwf
  · rw [OnDeleteClicked_short s InItem (by omega)]; exact hwf

theorem SetRandomMesh_wellFormed (s : Toolkit) (g : FRandomDraws) (s' : Toolkit)
    (h : SetRandomMesh s g = some s') (hwf : ListWellFormed s) : ListWellFormed s' := by
  obtain ⟨ho, hl⟩ := SetRandomMesh_frame s g s' h
  have hn := SetRandomMesh_NextPtr s g s' h
  unfold ListWellFormed
  rw [ho, hl, hn]
  exact hwf

theorem SliderOnValueChanged_wellFormed (s : Toolkit) (InItem : Ptr) (v : ℚ) (g : FRandomDraws)
    (s' : Toolkit) (h : SliderOnValueChanged s InItem v g = some s')
    (hv0 : 0 ≤ v) (hv1 : v ≤ 100) (hwf : ListWellFormed s) : ListWellFormed s' := by
  obtain ⟨hl, ho⟩ := SliderOnValueChanged_frame s InItem v g s' h
  have hn := SliderOnValueChanged_NextPtr s InItem v g s' h
  obtain ⟨hnd, hlt, hobj⟩ := hwf
  have hH0 : ∀ p ∈ s.ReferenceMeshes,
      0 ≤ ((Function.update s.Objects InItem { s.Objects InItem with Percent := v }) p).Percent ∧
      ((Function.update s.Objects InItem { s.Objects InItem with Percent := v }) p).Percent ≤ 100 ∧
      ((Function.update s.Objects InItem { s.Objects InItem with Percent := v }) p).bIsAdjusting
        = false := by
    intro p hp
    by_cases hpi : p = InItem
    · subst hpi
      rw [Function.update_same]
      exact ⟨hv0, hv1, (hobj p hp).2.2⟩
    · rw [Function.update_noteq hpi]
      exact hobj p hp
  refine ⟨by rw [hl]; exact hnd, by rw [hl, hn]; exact hlt, ?_⟩
  rw [hl, ho]
  intro p hp
  unfold SliderObjects
  simp only []
  split_ifs
  · obtain ⟨a, b, c⟩ := hH0 p hp
    obtain ⟨r0, r1⟩ := Redistribute_range InItem s.ReferenceMeshes _
      ((s.Objects InItem).Percent - v) p ⟨a, b⟩
    exact ⟨r0, r1, Redistribute_flag InItem s.ReferenceMeshes _ _ p c⟩
  · exact hH0 p hp

theorem OnRelativeCheckStateChanged_wellFormed (s : Toolkit) (InCheck : ECheckBoxState)
    (hwf : ListWellFormed s) : ListWellFormed (OnRelativeCheckStateChanged s InCheck) := by
  obtain ⟨hnd, hlt, hobj⟩ := hwf
  by_cases hc : InCheck = ECheckBoxState.Checked
  · by_cases hlen : s.ReferenceMeshes.length > 1
    · have hs : OnRelativeCheckStateChanged s InCheck =
          { s with bIsPercentRelative := true
                   Objects := Equalize (100 / (s.ReferenceMeshes.length : ℚ))
                     s.ReferenceMeshes s.Objects } := by
        unfold OnRelativeCheckStateChanged
        simp only [hc, if_true]
        rw [if_pos hlen]
      rw [hs]
      refine ⟨hnd, hlt, ?_⟩
      intro p hp
      obtain ⟨e1, e2⟩ := Equalize_mem (100 / (s.ReferenceMeshes.length : ℚ))
        s.ReferenceMeshes s.Objects p hp
      have hpos : (1 : ℚ) ≤ (s.ReferenceMeshes.length : ℚ) := by
        have : 1 ≤ s.ReferenceMeshes.length := by omega
        exact_mod_cast this
      show 0 ≤ (Equalize _ _ _ p).Percent ∧ (Equalize _ _ _ p).Percent ≤ 100 ∧
        (Equalize _ _ _ p).bIsAdjusting = false
      rw [e1]
      refine ⟨by positivity, ?_, e2⟩
      rw [div_le_iff₀ (by linarith)]
      nlinarith
    · have hs : OnRelativeCheckStateChanged s InCheck = { s with bIsPercentRelative := true } := by
        simp [OnRelativeCheckStateChanged, hc, hlen]
      rw [hs]
      exact ⟨hnd, hlt, hobj⟩
  · have hs : OnRelativeCheckStateChanged s InCheck = { s with bIsPercentRelative := false } := by
      simp [OnRelativeCheckStateChanged, hc]
    rw [hs]
    exact ⟨hnd, hlt, hobj⟩

theorem HandleEvents_wellFormed (fresh : FReferenceMesh)
    (h0 : 0 ≤ fresh.Percent) (h1 : fresh.Percent ≤ 100) (hf : fresh.bIsAdjusting = false)
    (es : List UIEvent) :
    ∀ s : Toolkit, ListWellFormed s → (∀ e ∈ es, e.valueInRange) →
      ∀ s', HandleEvents fresh s es = some s' → ListWellFormed s' := by
  induction es with
  | nil =>
    intro s hwf _ s' h
    cases h
    exact hwf
  | cons e es ih =>
    intro s hwf hes s' h
    have he := hes e (List.mem_cons_self _ _)
    have hrest : ∀ e' ∈ es, e'.valueInRange := fun e' h' => hes e' (List.mem_cons_of_mem _ h')
    cases e with
    | AddClicked =>
      exact ih _ (OnAddClicked_wellFormed fresh s h0 h1 hf hwf) hrest s'
        (by simpa [HandleEvents, HandleEvent] using h)
    | DeleteClicked InItem =>
      exact ih _ (OnDeleteClicked_wellFormed s InItem hwf) hrest s'
        (by simpa [HandleEvents, HandleEvent] using h)
    | SelectionChanged InMesh g =>
      cases hs : OnSelectionChanged s InMesh g with
      | none => simp [HandleEvents, HandleEvent, hs] at h
      | some s1 =>
        have hwf1 : ListWellFormed s1 := by
          unfold OnSelectionChanged at hs
          exact SetRandomMesh_wellFormed _ g s1 hs hwf
        exact ih s1 hwf1 hrest s' (by simpa [HandleEvents, HandleEvent, hs] using h)
    | SliderChanged InItem InValue g =>
      cases hs : SliderOnValueChanged s InItem InValue g with
      | none => simp [HandleEvents, HandleEvent, hs] at h
      | some s1 =>
        have hwf1 : ListWellFormed s1 :=
          SliderOnValueChanged_wellFormed s InItem InValue g s1 hs he.1 he.2 hwf
        exact ih s1 hwf1 hrest s' (by simpa [HandleEvents, HandleEvent, hs] using h)
    | RelativeChecked InCheck =>
      exact ih _ (OnRelativeCheckStateChanged_wellFormed s InCheck hwf) hrest s'
        (by simpa [HandleEvents, HandleEvent] using h)
    | UseSelectedChecked InCheck =>
      exact ih _ (show ListWellFormed (OnUseSelectedCheckStateChanged s InCheck) from hwf) hrest s'
        (by simpa [HandleEvents, HandleEvent] using h)

theorem carryToolkit_wellFormed : ListWellFormed carryToolkit := by
  refine ⟨by decide, ?_, ?_⟩
  · intro p hp
    have hp' : p = 0 ∨ p = 1 ∨ p = 2 := by simpa [carryToolkit, sampleToolkit] using hp
    have hn : carryToolkit.NextPtr = 3 := rfl
    rw [hn]
    rcases hp' with rfl | rfl | rfl <;> decide
  · intro p hp
    have hp' : p = 0 ∨ p = 1 ∨ p = 2 := by simpa [carryToolkit, sampleToolkit] using hp
    rcases hp' with rfl | rfl | rfl <;> norm_num [carryToolkit]

/-! ## The claims on the handlers -/

/-- C11: the reference-mesh list is never empty. `Init` on a constructed toolkit
leaves exactly one entry, with percent 100; every sequence of add and delete
clicks from there is handled and ends with at least one entry; a delete click
on a list of one entry changes nothing; a delete click on a longer list removes
the clicked entry (its first occurrence) and keeps the others in order. -/
theorem referenceMeshes_never_empty (E : LayoutModeNames) (fresh : FReferenceMesh)
    (members : Toolkit) :
    (Init E fresh (Construct E members)).ReferenceMeshes = [members.NextPtr] ∧
    ((Init E fresh (Construct E members)).Objects members.NextPtr).Percent = 100 ∧
    (∀ es : List UIEvent, (∀ e ∈ es, e.isListEdit = true) →
      ∃ s', HandleEvents fresh (Init E fresh (Construct E members)) es = some s' ∧
        1 ≤ s'.ReferenceMeshes.length) ∧
    (∀ (s : Toolkit) (InItem : Ptr), s.ReferenceMeshes.length = 1 →
      OnDeleteClicked s InItem = s) ∧
    (∀ (s : Toolkit) (InItem : Ptr), 1 < s.ReferenceMeshes.length →
      InItem ∈ s.ReferenceMeshes →
      ∃ pre post, s.ReferenceMeshes = pre ++ InItem :: post ∧ InItem ∉ pre ∧
        (OnDeleteClicked s InItem).ReferenceMeshes = pre ++ post ∧
        (OnDeleteClicked s InItem).Objects = s.Objects) ∧
    (∀ (s : Toolkit) (InItem : Ptr), InItem ∉ s.ReferenceMeshes →
      OnDeleteClicked s InItem = s) := by
  refine ⟨(Init_list E fresh members).1, (Init_list E fresh members).2, ?_, ?_, ?_, ?_⟩
  · intro es hes
    exact HandleEvents_listEdit_length fresh es _ (by rw [(Init_list E fresh members).1]; simp) hes
  · intro s InItem h
    exact OnDeleteClicked_short s InItem (by omega)
  · intro s InItem hlen hm
    obtain ⟨pre, post, h1, h2, h3⟩ := OnDeleteClicked_present s InItem hlen hm
    exact ⟨pre, post, h1, h2, by rw [h3], by rw [h3]⟩
  · intro s InItem hm
    exact OnDeleteClicked_absent s InItem hm

/-- C11 (witness): add twice, delete the first entry, then try to delete the
rest; one entry always remains. -/
theorem referenceMeshes_never_empty_witness :
    (HandleEvents freshMesh initToolkit
      [UIEvent.AddClicked, UIEvent.AddClicked, UIEvent.DeleteClicked 3,
       UIEvent.DeleteClicked 4, UIEvent.DeleteClicked 5]).map (fun t => t.ReferenceMeshes)
      = some [5] ∧
    ∃ s', HandleEvents freshMesh initToolkit
      [UIEvent.AddClicked, UIEvent.AddClicked, UIEvent.DeleteClicked 3,
       UIEvent.DeleteClicked 4, UIEvent.DeleteClicked 5] = some s' ∧
      1 ≤ s'.ReferenceMeshes.length :=
  ⟨by decide!,
   (referenceMeshes_never_empty sampleNames freshMesh sampleToolkit).2.2.1 _
     (by simp [UIEvent.isListEdit])⟩

/-- C12 (failing input): after `Init`, one add click and checking 'Relative
Chances' the two meshes hold 50 each; a delete click on the second one leaves
the box checked and a single mesh of percent 50, so the total is 50. -/
theorem relative_total_lost_on_delete :
    (HandleEvents freshMesh initToolkit
      [UIEvent.AddClicked, UIEvent.RelativeChecked ECheckBoxState.Checked]).map
        (fun t => (t.bIsPercentRelative, t.ReferenceMeshes, TotalPercent t))
      = some (true, [3, 4], 100) ∧
    (HandleEvents freshMesh initToolkit
      [UIEvent.AddClicked, UIEvent.RelativeChecked ECheckBoxState.Checked,
       UIEvent.DeleteClicked 4]).map
        (fun t => (t.bIsPercentRelative, t.ReferenceMeshes, TotalPercent t))
      = some (true, [3], 50) := by
  constructor <;> decide!

/-- C13: in relative-chances mode the redistribution runs over the other meshes
in list order with carry. Every state reached from `Init` by panel actions with
slider values in `[0, 100]` has a well-formed list (distinct meshes, percents
in `[0, 100]`, no flag raised), given that a default-constructed mesh has. On
every well-formed state with at least two meshes, when the slider of a listed
mesh moves from `p` to `v` the other meshes end, in list order, at the carry
chain started with `p - v`: the first other mesh receives the whole difference
and ends at its clamped sum, and only the part below 0 or at or above 100 is
handed to the next one. In particular, if the first other mesh holds `q` with
`0 ≤ q + (p - v) < 100`, it ends at exactly `q + (p - v)` and every later mesh
keeps its percent. -/
theorem slider_redistributes_with_carry (E : LayoutModeNames) (fresh : FReferenceMesh)
    (members : Toolkit) :
    (0 ≤ fresh.Percent → fresh.Percent ≤ 100 → fresh.bIsAdjusting = false →
      ∀ es : List UIEvent, (∀ e ∈ es, e.valueInRange) →
        ∀ s, HandleEvents fresh (Init E fresh (Construct E members)) es = some s →
          ListWellFormed s) ∧
    (∀ (s : Toolkit) (InItem : Ptr) (v : ℚ) (g : FRandomDraws),
      ListWellFormed s → s.bIsPercentRelative = true → 2 ≤ s.ReferenceMeshes.length →
      InItem ∈ s.ReferenceMeshes →
      (∀ s', SliderOnValueChanged s InItem v g = some s' →
        s'.ReferenceMeshes = s.ReferenceMeshes ∧
        (s'.Objects InItem).Percent = v ∧
        (OtherMeshes s InItem).map (fun p => (s'.Objects p).Percent)
          = CarryChain ((s.Objects InItem).Percent - v)
              ((OtherMeshes s InItem).map (fun p => (s.Objects p).Percent)) ∧
        (∀ (r : Ptr) (rest : List Ptr), OtherMeshes s InItem = r :: rest →
          (s'.Objects r).Percent
            = Clamp ((s.Objects r).Percent + ((s.Objects InItem).Percent - v)) 0 100 ∧
          (0 ≤ (s.Objects r).Percent + ((s.Objects InItem).Percent - v) →
            (s.Objects r).Percent + ((s.Objects InItem).Percent - v) < 100 →
            (s'.Objects r).Percent
              = (s.Objects r).Percent + ((s.Objects InItem).Percent - v) ∧
            ∀ x ∈ rest, (s'.Objects x).Percent = (s.Objects x).Percent))) ∧
      ((s.bUseSelected = true → s.SelectedMeshIndex < s.ReferenceMeshes.length) → g.Valid →
        ∃ s', SliderOnValueChanged s InItem v g = some s')) := by
  constructor
  · intro h0 h1 hf es hes s h
    exact HandleEvents_wellFormed fresh h0 h1 hf es _ (Init_wellFormed E fresh members hf) hes s h
  · intro s InItem v g hwf hrel hlen hmem
    refine ⟨?_, fun hsel hg => SliderOnValueChanged_isSome s InItem v g hsel hg⟩
    intro s' h
    obtain ⟨hnd, _, hobj⟩ := hwf
    obtain ⟨hl, ho⟩ := SliderOnValueChanged_frame s InItem v g s' h
    unfold SliderObjects at ho
    rw [if_pos ⟨hrel, (hobj InItem hmem).2.2, by omega⟩] at ho
    simp only [] at ho
    have hH0 : ∀ x, x ≠ InItem →
        (Function.update s.Objects InItem { s.Objects InItem with Percent := v }) x
          = s.Objects x := fun x hx => Function.update_noteq hx _ _
    have hchain : (OtherMeshes s InItem).map (fun p => (s'.Objects p).Percent)
        = CarryChain ((s.Objects InItem).Percent - v)
            ((OtherMeshes s InItem).map (fun p => (s.Objects p).Percent)) := by
      have key := Redistribute_chain InItem s.ReferenceMeshes
        (Function.update s.Objects InItem { s.Objects InItem with Percent := v })
        ((s.Objects InItem).Percent - v) hnd
      unfold OtherMeshes
      rw [ho, key]
      congr 1
      apply List.map_congr_left
      intro p hp
      rw [hH0 p (by simpa using (List.mem_filter.1 hp).2)]
    refine ⟨hl, ?_, hchain, ?_⟩
    · rw [ho, Redistribute_frame InItem _ _ _ InItem (Or.inr rfl)]
      simp
    · intro r rest hor
      rw [hor, List.map_cons, List.map_cons, CarryChain, List.cons.injEq] at hchain
      obtain ⟨hfirst, hrest⟩ := hchain
      refine ⟨hfirst, ?_⟩
      intro q0 q1
      have hc : Clamp ((s.Objects r).Percent + ((s.Objects InItem).Percent - v)) 0 100
          = (s.Objects r).Percent + ((s.Objects InItem).Percent - v) := by
        have := (stepPercent_of_mem _ _ q0 q1).1
        simpa [stepPercent] using this
      have hd : (if (s.Objects r).Percent + ((s.Objects InItem).Percent - v) < 0
          then (s.Objects r).Percent + ((s.Objects InItem).Percent - v)
          else if (s.Objects r).Percent + ((s.Objects InItem).Percent - v) ≥ 100
            then (s.Objects r).Percent + ((s.Objects InItem).Percent - v) - 100 else 0)
          = (0 : ℚ) := by
        have := (stepPercent_of_mem _ _ q0 q1).2
        simpa [stepCarry] using this
      refine ⟨by rw [hfirst, hc], ?_⟩
      have hsub : ∀ x ∈ rest, x ∈ s.ReferenceMeshes := by
        intro x hx
        have : x ∈ OtherMeshes s InItem := by rw [hor]; exact List.mem_cons_of_mem _ hx
        exact (List.mem_filter.1 this).1
      rw [hd, CarryChain_zero] at hrest
      · exact List.map_inj_left.1 hrest
      · intro q hq
        rw [List.mem_map] at hq
        obtain ⟨x, hx, rfl⟩ := hq
        exact ⟨(hobj x (hsub x hx)).1, (hobj x (hsub x hx)).2.1⟩

/-- C13 (witness): the three meshes hold 30, 10 and 60 and the first slider
moves to 60; the second mesh takes 10 of the 30 to give and ends at 0, the
remaining 20 are handed on and the third mesh ends at 40. The state reached
from `Init` by an add click, checking 'Relative Chances' and moving the first
slider to 70 has a well-formed list. -/
theorem slider_redistributes_with_carry_witness :
    (ListWellFormed carryToolkit ∧
      ∃ s', SliderOnValueChanged carryToolkit 0 60 (drawsAt (1 / 2)) = some s' ∧
        (s'.Objects 0).Percent = 60 ∧
        [1, 2].map (fun p => (s'.Objects p).Percent) = [0, 40]) ∧
    ∃ s, HandleEvents freshMesh
        (Init sampleNames freshMesh (Construct sampleNames sampleToolkit))
        [UIEvent.AddClicked, UIEvent.RelativeChecked ECheckBoxState.Checked,
         UIEvent.SliderChanged 3 70 (drawsAt (1 / 2))] = some s ∧
      ListWellFormed s := by
  have h := (slider_redistributes_with_carry sampleNames freshMesh sampleToolkit).2
    carryToolkit 0 60 (drawsAt (1 / 2)) carryToolkit_wellFormed rfl (by decide) (by decide)
  obtain ⟨s', hs'⟩ := h.2 (fun hsel => by cases hsel)
    (drawsAt_valid _ (by norm_num) (by norm_num))
  obtain ⟨_, a, b, _⟩ := h.1 s' hs'
  refine ⟨⟨carryToolkit_wellFormed, s', hs', a, ?_⟩, ?_⟩
  · have ho : OtherMeshes carryToolkit 0 = [1, 2] := by decide
    rw [ho] at b
    rw [b]
    decide!
  · have hsome : (HandleEvents freshMesh
        (Init sampleNames freshMesh (Construct sampleNames sampleToolkit))
        [UIEvent.AddClicked, UIEvent.RelativeChecked ECheckBoxState.Checked,
         UIEvent.SliderChanged 3 70 (drawsAt (1 / 2))]).isSome = true := by decide!
    obtain ⟨s, hs⟩ := Option.isSome_iff_exists.1 hsome
    refine ⟨s, hs, (slider_redistributes_with_carry sampleNames freshMesh sampleToolkit).1
      (by decide!) (by decide!) rfl _ ?_ s hs⟩
    intro e he
    simp only [List.mem_cons, List.mem_singleton, List.not_mem_nil, or_false] at he
    rcases he with rfl | rfl | rfl
    · trivial
    · trivial
    · exact ⟨by norm_num, by norm_num⟩

/-- C14: eligibility is monotone in the percent; a mesh with a valid asset and
percent 100 is eligible for every roll in `[0, 100]`; and when the list holds
such a mesh, `SetRandomMesh` with 'Use Selected' off and valid draws picks the
valid static mesh of a listed, eligible entry. -/
theorem eligible_monotone_and_full_percent_picks (s : Toolkit) (g : FRandomDraws) (hg : g.Valid) :
    (∀ (Rand : ℤ) (p q : Ptr), Eligible s Rand p = true →
      IsValid (s.Objects q).StaticMesh = true →
      (s.Objects p).Percent ≤ (s.Objects q).Percent → Eligible s Rand q = true) ∧
    (0 ≤ FRandRange 0 100 g.Roll ∧ FRandRange 0 100 g.Roll ≤ 100) ∧
    (∀ p : Ptr, IsValid (s.Objects p).StaticMesh = true → (s.Objects p).Percent = 100 →
      Eligible s (TruncToInt (FRandRange 0 100 g.Roll)) p = true) ∧
    (s.bUseSelected = false →
      (∃ p ∈ s.ReferenceMeshes,
        IsValid (s.Objects p).StaticMesh = true ∧ (s.Objects p).Percent = 100) →
      ∃ s' r, SetRandomMesh s g = some s' ∧ r ∈ s.ReferenceMeshes ∧
        Eligible s (TruncToInt (FRandRange 0 100 g.Roll)) r = true ∧
        s'.PickedMesh = (s.Objects r).StaticMesh ∧ IsValid s'.PickedMesh = true) := by
  have hfull : ∀ p : Ptr, IsValid (s.Objects p).StaticMesh = true →
      (s.Objects p).Percent = 100 →
      Eligible s (TruncToInt (FRandRange 0 100 g.Roll)) p = true := by
    intro p hv hp
    rw [Eligible_iff, hp]
    exact ⟨hv, TruncToInt_roll_le _ hg.roll.1 hg.roll.2⟩
  refine ⟨?_, ?_, hfull, ?_⟩
  · intro Rand p q hp hv hle
    rw [Eligible_iff] at hp ⊢
    exact ⟨hv, le_trans hp.2 hle⟩
  · have hr : FRandRange 0 100 g.Roll = 100 * g.Roll := by unfold FRandRange; ring
    rw [hr]
    constructor
    · have := hg.roll.1; positivity
    · have := hg.roll.2; linarith
  · intro hsel ⟨p, hp, hv, h100⟩
    have hmem : p ∈ PickedMeshes s g := List.mem_filter.2 ⟨hp, hfull p hv h100⟩
    have hne : (PickedMeshes s g).length ≠ 0 :=
      fun h0 => List.not_mem_nil p (List.length_eq_zero.1 h0 ▸ hmem)
    obtain ⟨i0, i1⟩ := PickedIndex_range s g hg hne
    obtain ⟨r, hr, hr'⟩ := TArrayAt_some _ _ i0 i1
    have hrm : r ∈ PickedMeshes s g := List.getElem?_mem hr'
    obtain ⟨hrl, hre⟩ := List.mem_filter.1 hrm
    refine ⟨RollTransform { s with PickedMesh := (s.Objects r).StaticMesh } g, r, ?_, hrl, hre,
      rfl, ?_⟩
    · rw [SetRandomMesh_random s g hsel, if_neg hne, hr]; rfl
    · exact ((Eligible_iff s _ r).1 hre).1

/-- C14 (witness): a mesh with percent 100 in the list is picked at roll 100. -/
theorem eligible_monotone_and_full_percent_picks_witness :
    ∃ s', SetRandomMesh initToolkitWithMesh (drawsAt 1) = some s' ∧
      s'.PickedMesh = some meshA := by
  obtain ⟨s', r, hs, hr, _, hp, _⟩ :=
    (eligible_monotone_and_full_percent_picks initToolkitWithMesh (drawsAt 1)
      (drawsAt_valid 1 (by norm_num) (by norm_num))).2.2.2 rfl
      ⟨3, by decide, by decide, by decide!⟩
  refine ⟨s', hs, ?_⟩
  have hr3 : r = 3 := by simpa [initToolkitWithMesh, initToolkit, Init, Construct] using hr
  rw [hp, hr3]
  decide

/-- C15: with an editor mode attached every command calls `OnLayoutModeChange`
and then one brush call: `RegisterBrush` for Paint, `UnregisterBrush` for the
other three, never the opposite one. With the name of the Paint mode distinct
from the other three names, after any non-empty sequence of commands the last
brush call is `RegisterBrush` exactly when `CurrentLayoutMode` is Paint, and a
state in which this holds keeps it through any sequence. -/
theorem brush_follows_command (E : LayoutModeNames) (s : Toolkit) (hed : s.EdMode ≠ none) :
    (∀ c : Command, NewCalls s (ExecuteAction E s c)
      = [Call.OnLayoutModeChange (c.mode E), c.brushCall]) ∧
    ((NewCalls s (ExecuteAction E s Command.Paint)).count Call.RegisterBrush = 1 ∧
      Call.UnregisterBrush ∉ NewCalls s (ExecuteAction E s Command.Paint)) ∧
    (∀ c : Command, c ≠ Command.Paint →
      (NewCalls s (ExecuteAction E s c)).count Call.UnregisterBrush = 1 ∧
      Call.RegisterBrush ∉ NewCalls s (ExecuteAction E s c)) ∧
    (E.Select ≠ E.Paint → E.PaintSelect ≠ E.Paint → E.Transform ≠ E.Paint →
      (∀ cs : List Command, cs ≠ [] →
        (LastBrushCall (ExecuteActions E s cs).Calls = some Call.RegisterBrush ↔
          (ExecuteActions E s cs).CurrentLayoutMode = E.Paint)) ∧
      ((LastBrushCall s.Calls = some Call.RegisterBrush ↔ s.CurrentLayoutMode = E.Paint) →
        ∀ cs : List Command,
          (LastBrushCall (ExecuteActions E s cs).Calls = some Call.RegisterBrush ↔
            (ExecuteActions E s cs).CurrentLayoutMode = E.Paint))) := by
  have hnew : ∀ c : Command, NewCalls s (ExecuteAction E s c)
      = [Call.OnLayoutModeChange (c.mode E), c.brushCall] :=
    fun c => NewCalls_append _ _ _ (ExecuteAction_attached E s c hed).1
  have hseq : E.Select ≠ E.Paint → E.PaintSelect ≠ E.Paint → E.Transform ≠ E.Paint →
      ∀ cs : List Command, cs ≠ [] →
        (LastBrushCall (ExecuteActions E s cs).Calls = some Call.RegisterBrush ↔
          (ExecuteActions E s cs).CurrentLayoutMode = E.Paint) := by
    intro n1 n2 n3 cs hne
    cases cs with
    | nil => exact absurd rfl hne
    | cons c cs =>
      obtain ⟨h1, h2⟩ := ExecuteActions_last E cs s c hed
      rw [h1, h2]
      generalize (c :: cs).getLast (List.cons_ne_nil _ _) = d
      cases d <;> simp [Command.brushCall, Command.mode, n1, n2, n3]
  refine ⟨hnew, ?_, ?_, ?_⟩
  · rw [hnew]; simp [Command.brushCall, List.count_cons]
  · intro c hc
    rw [hnew]
    cases c <;> simp [Command.brushCall, List.count_cons] at hc ⊢
  · intro n1 n2 n3
    refine ⟨hseq n1 n2 n3, ?_⟩
    intro h0 cs
    by_cases hne : cs = []
    · subst hne; exact h0
    · exact hseq n1 n2 n3 cs hne

/-- C15 (witness): Paint then Select on the sample toolkit with an editor mode
attached ends with `UnregisterBrush` and the mode "Select". -/
theorem brush_follows_command_witness :
    NewCalls { sampleToolkit with EdMode := some sampleEdMode }
      (ExecuteActions sampleNames { sampleToolkit with EdMode := some sampleEdMode }
        [Command.Paint, Command.Select])
      = [Call.OnLayoutModeChange "Paint", Call.RegisterBrush,
         Call.OnLayoutModeChange "Select", Call.UnregisterBrush] ∧
    (LastBrushCall (ExecuteActions sampleNames
        { sampleToolkit with EdMode := some sampleEdMode }
        [Command.Paint, Command.Select]).Calls = some Call.RegisterBrush ↔
      (ExecuteActions sampleNames { sampleToolkit with EdMode := some sampleEdMode }
        [Command.Paint, Command.Select]).CurrentLayoutMode = sampleNames.Paint) :=
  ⟨by decide,
   ((brush_follows_command sampleNames { sampleToolkit with EdMode := some sampleEdMode }
      (by simp)).2.2.2 (by decide) (by decide) (by decide)).1
        [Command.Paint, Command.Select] (by simp)⟩

/-- C16: with both scale locks on, a `SetRandomMesh` call that reaches the
transform roll leaves `ScaleRandom` with three equal components, each
`MinScaleRandom.X + t * (MaxScaleRandom.X - MinScaleRandom.X)` for the drawn
fraction `t`; for `t` in `[0, 1]` that value lies between `MinScaleRandom.X` and
`MaxScaleRandom.X`; and changing the Y and Z components of the two bounds does
not change the result. -/
theorem locked_scale_uniform (s : Toolkit) (g : FRandomDraws) (s' : Toolkit)
    (hmin : s.bMinScaleLock = true) (hmax : s.bMaxScaleLock = true)
    (h : SetRandomMesh s g = some s') (hr : ReachesTransformRoll s g) :
    s'.ScaleRandom.X
      = s.MinScaleRandom.X + g.UniformScale * (s.MaxScaleRandom.X - s.MinScaleRandom.X) ∧
    s'.ScaleRandom.Y = s'.ScaleRandom.X ∧ s'.ScaleRandom.Z = s'.ScaleRandom.X ∧
    (UnitFraction g.UniformScale →
      min s.MinScaleRandom.X s.MaxScaleRandom.X ≤ s'.ScaleRandom.X ∧
      s'.ScaleRandom.X ≤ max s.MinScaleRandom.X s.MaxScaleRandom.X) ∧
    (UnitFraction g.UniformScale → s.MinScaleRandom.X ≤ s.MaxScaleRandom.X →
      s.MinScaleRandom.X ≤ s'.ScaleRandom.X ∧ s'.ScaleRandom.X ≤ s.MaxScaleRandom.X) ∧
    (∀ (y z y' z' : ℚ) (u' : Toolkit),
      SetRandomMesh
        { s with MinScaleRandom := ⟨s.MinScaleRandom.X, y, z⟩
                 MaxScaleRandom := ⟨s.MaxScaleRandom.X, y', z'⟩ } g = some u' →
      u'.ScaleRandom = s'.ScaleRandom) := by
  obtain ⟨m, rfl⟩ := SetRandomMesh_reaches s g s' h hr
  have hscale : ∀ t : Toolkit, t.bMinScaleLock = true → t.bMaxScaleLock = true →
      (RollTransform t g).ScaleRandom
        = FVector.OneVectorTimes
            (FRandRange t.MinScaleRandom.X t.MaxScaleRandom.X g.UniformScale) := by
    intro t h1 h2
    simp [RollTransform, h1, h2]
  have hs : (RollTransform { s with PickedMesh := m } g).ScaleRandom
      = FVector.OneVectorTimes
          (FRandRange s.MinScaleRandom.X s.MaxScaleRandom.X g.UniformScale) :=
    hscale { s with PickedMesh := m } hmin hmax
  have hX : (RollTransform { s with PickedMesh := m } g).ScaleRandom.X
      = s.MinScaleRandom.X + g.UniformScale * (s.MaxScaleRandom.X - s.MinScaleRandom.X) := by
    rw [hs]
    simp only [FVector.OneVectorTimes, FRandRange]
    ring
  have hfr : s.MinScaleRandom.X + g.UniformScale * (s.MaxScaleRandom.X - s.MinScaleRandom.X)
      = FRandRange s.MinScaleRandom.X s.MaxScaleRandom.X g.UniformScale := by
    unfold FRandRange; ring
  refine ⟨hX, ?_, ?_, ?_, ?_, ?_⟩
  · rw [hs]; rfl
  · rw [hs]; rfl
  · intro ht
    rw [hX, hfr]
    exact FRandRange_between _ _ _ ht
  · intro ht hle
    have := FRandRange_between s.MinScaleRandom.X s.MaxScaleRandom.X _ ht
    rw [min_eq_left hle, max_eq_right hle] at this
    rw [hX, hfr]
    exact this
  · intro y z y' z' u' hu
    have hru : ReachesTransformRoll
        { s with MinScaleRandom := ⟨s.MinScaleRandom.X, y, z⟩
                 MaxScaleRandom := ⟨s.MaxScaleRandom.X, y', z'⟩ } g := hr
    obtain ⟨m', rfl⟩ := SetRandomMesh_reaches _ g u' hu hru
    rw [hs]
    exact hscale _ hmin hmax

/-- C16 (witness): both locks on, bounds 1 and 3 on X, fraction one half: the
scale is (2, 2, 2). -/
theorem locked_scale_uniform_witness :
    ∃ s', SetRandomMesh lockedToolkit halfDraws = some s' ∧ s'.ScaleRandom = ⟨2, 2, 2⟩ := by
  obtain ⟨s', hs'⟩ := SetRandomMesh_isSome lockedToolkit halfDraws (fun _ => by decide)
    ⟨⟨by norm_num [halfDraws], by norm_num [halfDraws]⟩, fun _ _ _ => le_refl _, fun _ _ h => h,
      zero_unitFractions, zero_unitFractions,
      ⟨by norm_num [halfDraws], by norm_num [halfDraws]⟩, zero_unitFractions⟩
  obtain ⟨hx, hy, hz, _⟩ := locked_scale_uniform lockedToolkit halfDraws s' rfl rfl hs'
    (Or.inl rfl)
  refine ⟨s', hs', ?_⟩
  have hx2 : s'.ScaleRandom.X = 2 := by
    rw [hx]; norm_num [lockedToolkit, halfDraws]
  cases hsc : s'.ScaleRandom with
  | mk X Y Z =>
    rw [hsc] at hx2 hy hz
    simp only at hx2 hy hz
    rw [hy, hz, hx2]

/-- C17: editing one field of the min-scale row (and likewise of the max-scale
row) to `v` leaves all three components equal to `v` when the lock of that row
is on, and the handler completes whenever its `SetRandomMesh` does; with the
lock off it sets the edited component only and keeps the other two. -/
theorem scale_lock_ties_components (s : Toolkit) (g : FRandomDraws) (v : ℚ) (axis : EAxis) :
    (s.bMinScaleLock = true →
      (∀ s', OnMinScaleChanged s g v axis = some s' → s'.MinScaleRandom = ⟨v, v, v⟩) ∧
      ((s.bUseSelected = true → s.SelectedMeshIndex < s.ReferenceMeshes.length) → g.Valid →
        ∃ s', OnMinScaleChanged s g v axis = some s')) ∧
    (s.bMinScaleLock = false →
      ∃ s', OnMinScaleChanged s g v axis = some s' ∧
        s'.MinScaleRandom.component axis = v ∧
        ∀ a : EAxis, a ≠ axis →
          s'.MinScaleRandom.component a = s.MinScaleRandom.component a) ∧
    (s.bMaxScaleLock = true →
      (∀ s', OnMaxScaleChanged s g v axis = some s' → s'.MaxScaleRandom = ⟨v, v, v⟩) ∧
      ((s.bUseSelected = true → s.SelectedMeshIndex < s.ReferenceMeshes.length) → g.Valid →
        ∃ s', OnMaxScaleChanged s g v axis = some s')) ∧
    (s.bMaxScaleLock = false →
      ∃ s', OnMaxScaleChanged s g v axis = some s' ∧
        s'.MaxScaleRandom.component axis = v ∧
        ∀ a : EAxis, a ≠ axis →
          s'.MaxScaleRandom.component a = s.MaxScaleRandom.component a) := by
  refine ⟨?_, ?_, ?_, ?_⟩
  · intro hl
    constructor
    · intro s' h
      cases axis <;>
        · simp only [OnMinScaleChanged, hl, if_true] at h
          rw [(SetRandomMesh_scale_bounds _ g s' h).1]
    · intro hsel hg
      cases axis <;>
        · simp only [OnMinScaleChanged, hl, if_true]
          exact SetRandomMesh_isSome _ g hsel hg
  · intro hl
    cases axis
    · refine ⟨{ s with MinScaleRandom := { s.MinScaleRandom with X := v } },
        by simp only [OnMinScaleChanged, hl]; rfl, rfl, ?_⟩
      intro a ha; cases a <;> first | exact absurd rfl ha | rfl
    · refine ⟨{ s with MinScaleRandom := { s.MinScaleRandom with Y := v } },
        by simp only [OnMinScaleChanged, hl]; rfl, rfl, ?_⟩
      intro a ha; cases a <;> first | exact absurd rfl ha | rfl
    · refine ⟨{ s with MinScaleRandom := { s.MinScaleRandom with Z := v } },
        by simp only [OnMinScaleChanged, hl]; rfl, rfl, ?_⟩
      intro a ha; cases a <;> first | exact absurd rfl ha | rfl
  · intro hl
    constructor
    · intro s' h
      cases axis <;>
        · simp only [OnMaxScaleChanged, hl, if_true] at h
          rw [(SetRandomMesh_scale_bounds _ g s' h).2]
    · intro hsel hg
      cases axis <;>
        · simp only [OnMaxScaleChanged, hl, if_true]
          exact SetRandomMesh_isSome _ g hsel hg
  · intro hl
    cases axis
    · refine ⟨{ s with MaxScaleRandom := { s.MaxScaleRandom with X := v } },
        by simp only [OnMaxScaleChanged, hl]; rfl, rfl, ?_⟩
      intro a ha; cases a <;> first | exact absurd rfl ha | rfl
    · refine ⟨{ s with MaxScaleRandom := { s.MaxScaleRandom with Y := v } },
        by simp only [OnMaxScaleChanged, hl]; rfl, rfl, ?_⟩
      intro a ha; cases a <;> first | exact absurd rfl ha | rfl
    · refine ⟨{ s with MaxScaleRandom := { s.MaxScaleRandom with Z := v } },
        by simp only [OnMaxScaleChanged, hl]; rfl, rfl, ?_⟩
      intro a ha; cases a <;> first | exact absurd rfl ha | rfl

/-- C17 (witness): with the min lock on, typing 4 into the Y field of the bounds
`(1, 5, 7)` gives `(4, 4, 4)`; with the lock off it gives `(1, 4, 7)`. -/
theorem scale_lock_ties_components_witness :
    (∃ s', OnMinScaleChanged lockedToolkit halfDraws 4 EAxis.Y = some s' ∧
      s'.MinScaleRandom = ⟨4, 4, 4⟩) ∧
    (∃ s', OnMinScaleChanged { lockedToolkit with bMinScaleLock := false } halfDraws 4 EAxis.Y
        = some s' ∧ s'.MinScaleRandom = ⟨1, 4, 7⟩) := by
  constructor
  · have h := (scale_lock_ties_components lockedToolkit halfDraws 4 EAxis.Y).1 rfl
    obtain ⟨s', hs'⟩ := h.2 (fun _ => by decide) halfDraws_valid
    exact ⟨s', hs', h.1 s' hs'⟩
  · obtain ⟨s', hs', hy, hrest⟩ :=
      (scale_lock_ties_components { lockedToolkit with bMinScaleLock := false }
        halfDraws 4 EAxis.Y).2.1 rfl
    refine ⟨s', hs', ?_⟩
    have hx := hrest EAxis.X (by decide)
    have hz := hrest EAxis.Z (by decide)
    cases hm : s'.MinScaleRandom with
    | mk X Y Z =>
      rw [hm] at hx hy hz
      simp only [FVector.component] at hx hy hz
      rw [hx, hy, hz]
      rfl

/-- C18 (failing input): after `Init`, an add click, a selection of the second
entry and a delete click on it, the list has one entry while
`SelectedMeshIndex` is still 1; once 'Use Selected' is checked, `SetRandomMesh`
reads `ReferenceMeshes[1]` out of range. -/
theorem selected_index_stale_after_delete :
    (drawsAt (1 / 2)).Valid ∧
    (HandleEvents freshMesh initToolkit
      [UIEvent.AddClicked, UIEvent.SelectionChanged (some 4) (drawsAt (1 / 2)),
       UIEvent.DeleteClicked 4]).map
        (fun t => (t.SelectedMeshIndex, t.ReferenceMeshes))
      = some (1, [3]) ∧
    ((HandleEvents freshMesh initToolkit
      [UIEvent.AddClicked, UIEvent.SelectionChanged (some 4) (drawsAt (1 / 2)),
       UIEvent.DeleteClicked 4]).bind
        (fun t => SetRandomMesh
          (OnUseSelectedCheckStateChanged t ECheckBoxState.Checked) (drawsAt (1 / 2)))).isNone
      = true := by
  refine ⟨drawsAt_valid _ (by norm_num) (by norm_num), ?_, ?_⟩ <;> decide!

/-- C19: checking 'Relative Chances' with more than one reference mesh gives
every listed mesh the percent `100 / N`, so that the percents sum to 100, and
leaves every listed `bIsAdjusting` flag false; with one mesh, or when the box
is not checked, no object is changed. -/
theorem relativeChecked_equalises (s : Toolkit) (InCheck : ECheckBoxState) :
    (OnRelativeCheckStateChanged s InCheck).ReferenceMeshes = s.ReferenceMeshes ∧
    (InCheck = ECheckBoxState.Checked → 1 < s.ReferenceMeshes.length →
      (∀ p ∈ s.ReferenceMeshes,
        ((OnRelativeCheckStateChanged s InCheck).Objects p).Percent
            = 100 / (s.ReferenceMeshes.length : ℚ) ∧
        ((OnRelativeCheckStateChanged s InCheck).Objects p).bIsAdjusting = false) ∧
      TotalPercent (OnRelativeCheckStateChanged s InCheck) = 100 ∧
      (OnRelativeCheckStateChanged s InCheck).bIsPercentRelative = true) ∧
    ((s.ReferenceMeshes.length = 1 ∨ InCheck ≠ ECheckBoxState.Checked) →
      (OnRelativeCheckStateChanged s InCheck).Objects = s.Objects) := by
  refine ⟨?_, ?_, ?_⟩
  · unfold OnRelativeCheckStateChanged
    simp only []
    split_ifs <;> rfl
  · intro hc hlen
    have hs : OnRelativeCheckStateChanged s InCheck =
        { s with bIsPercentRelative := true
                 Objects := Equalize (100 / (s.ReferenceMeshes.length : ℚ))
                   s.ReferenceMeshes s.Objects } := by
      unfold OnRelativeCheckStateChanged
      simp only [hc, if_true]
      rw [if_pos hlen]
    rw [hs]
    have hall : ∀ p ∈ s.ReferenceMeshes,
        (Equalize (100 / (s.ReferenceMeshes.length : ℚ)) s.ReferenceMeshes s.Objects p).Percent
          = 100 / (s.ReferenceMeshes.length : ℚ) ∧
        (Equalize (100 / (s.ReferenceMeshes.length : ℚ)) s.ReferenceMeshes s.Objects p).bIsAdjusting
          = false := fun p hp => Equalize_mem _ _ _ p hp
    refine ⟨hall, ?_, rfl⟩
    unfold TotalPercent
    simp only []
    rw [List.map_congr_left (fun p hp => (hall p hp).1), List.map_const', List.sum_replicate]
    have hne : (s.ReferenceMeshes.length : ℚ) ≠ 0 := by
      have : 0 < s.ReferenceMeshes.length := by omega
      exact_mod_cast this.ne'
    rw [nsmul_eq_mul]
    field_simp
  · intro h
    by_cases hc : InCheck = ECheckBoxState.Checked
    · have hl : ¬ s.ReferenceMeshes.length > 1 := by
        rcases h with h | h
        · omega
        · exact absurd hc h
      simp [OnRelativeCheckStateChanged, hc, hl]
    · simp [OnRelativeCheckStateChanged, hc]

/-- C19 (witness): checking the box on the three sample meshes gives each of
them one third of 100. -/
theorem relativeChecked_equalises_witness :
    ((OnRelativeCheckStateChanged sampleToolkit ECheckBoxState.Checked).Objects 1).Percent
      = 100 / 3 ∧
    TotalPercent (OnRelativeCheckStateChanged sampleToolkit ECheckBoxState.Checked) = 100 := by
  have h := (relativeChecked_equalises sampleToolkit ECheckBoxState.Checked).2.1 rfl
    (by decide)
  refine ⟨?_, h.2.1⟩
  have h1 := (h.1 1 (by decide)).1
  rw [h1]
  norm_num [sampleToolkit]

/-- C20: with an editor mode attached `BakeToInstanceMesh(b)` ends with
`DestroyActors(b)`, called once, also when the component list is empty and
nothing is merged; with no editor mode attached it makes no call and changes
nothing. -/
theorem bakeToInstanceMesh_ends_with_destroy (s : Toolkit) (b : Bool) :
    (∀ EdMode : FPhysicalLayoutMode, s.EdMode = some EdMode →
      (NewCalls s (BakeToInstanceMesh s b)).getLast? = some (Call.DestroyActors b) ∧
      (NewCalls s (BakeToInstanceMesh s b)).count (Call.DestroyActors b) = 1 ∧
      (∀ b', Call.DestroyActors b' ∈ NewCalls s (BakeToInstanceMesh s b) → b' = b) ∧
      (BakedComponents EdMode b = [] →
        (∀ l, Call.MergeComponentsToInstances l ∉ NewCalls s (BakeToInstanceMesh s b)) ∧
        (NewCalls s (BakeToInstanceMesh s b)).length = 2)) ∧
    (s.EdMode = none →
      BakeToInstanceMesh s b = s ∧ NewCalls s (BakeToInstanceMesh s b) = []) := by
  constructor
  · intro EdMode hed
    have hcomps : BakedComponents EdMode b
        = if b then EdMode.SelectedPrimitives else EdMode.SpawnedComponents := rfl
    by_cases hc : BakedComponents EdMode b = []
    · have hcalls : (BakeToInstanceMesh s b).Calls = s.Calls ++
          [if b then Call.GetSelectedPrimitives else Call.GetSpawnedComponents,
           Call.DestroyActors b] := by
        cases b <;> simp_all [BakeToInstanceMesh]
      rw [NewCalls_append _ _ _ hcalls]
      refine ⟨by simp, ?_, ?_, fun _ => ⟨?_, rfl⟩⟩
      · cases b <;> simp [List.count_cons]
      · intro b' hb'; cases b <;> simpa using hb'
      · cases b <;> simp
    · have hlen : (BakedComponents EdMode b).length > 0 := List.length_pos.2 hc
      have hcalls : (BakeToInstanceMesh s b).Calls = s.Calls ++
          [if b then Call.GetSelectedPrimitives else Call.GetSpawnedComponents,
           Call.BeginTransaction, Call.GetWorld, Call.GetWorld,
           Call.MergeComponentsToInstances (BakedComponents EdMode b), Call.EndTransaction,
           Call.DestroyActors b] := by
        cases b <;> simp_all [BakeToInstanceMesh]
      rw [NewCalls_append _ _ _ hcalls]
      refine ⟨by simp, ?_, ?_, fun h => absurd h hc⟩
      · cases b <;> simp [List.count_cons]
      · intro b' hb'; cases b <;> simpa using hb'
  · intro hed
    have : BakeToInstanceMesh s b = s := by
      unfold BakeToInstanceMesh
      rw [hed]
    rw [this]
    exact ⟨rfl, by simp [NewCalls]⟩

/-- C20 (witness): baking all components of an editor mode that spawned none
makes the query and then `DestroyActors(false)`. -/
theorem bakeToInstanceMesh_ends_with_destroy_witness :
    NewCalls { sampleToolkit with EdMode := some ⟨[7, 8], []⟩ }
      (BakeToInstanceMesh { sampleToolkit with EdMode := some ⟨[7, 8], []⟩ } false)
      = [Call.GetSpawnedComponents, Call.DestroyActors false] ∧
    (NewCalls { sampleToolkit with EdMode := some ⟨[7, 8], []⟩ }
      (BakeToInstanceMesh { sampleToolkit with EdMode := some ⟨[7, 8], []⟩ } false)).getLast?
      = some (Call.DestroyActors false) :=
  ⟨by decide,
   ((bakeToInstanceMesh_ends_with_destroy
      { sampleToolkit with EdMode := some ⟨[7, 8], []⟩ } false).1 ⟨[7, 8], []⟩ rfl).1⟩

/-! ## Lemmas on mode switches -/

theorem ExecuteAction_mode_fields (E : LayoutModeNames) (s : Toolkit) (c : Command) :
    (ExecuteAction E s c).LayoutModes = s.LayoutModes ∧
    (ExecuteAction E s c).LayoutModeIndex = c.index ∧
    (ExecuteAction E s c).CurrentLayoutMode = c.mode E := by
  cases hed : s.EdMode <;> cases c <;>
    simp [ExecuteAction, ChangeMode, callEdMode, hed, Command.index, Command.mode]

/-- With four layout modes `ChangeMode(int)` always completes, keeps the list
and leaves index and name in agreement. -/
theorem ChangeModeInt_agrees (s : Toolkit) (d : ℤ) (hlen : s.LayoutModes.length = 4) :
    ∃ s', ChangeModeInt s d = some s' ∧ s'.LayoutModes = s.LayoutModes ∧
      0 ≤ s'.LayoutModeIndex ∧ s'.LayoutModeIndex ≤ 3 ∧ ModeIndexAgrees s' := by
  obtain ⟨b1, b2, b3⟩ := tmod_pos_bounds (wrap32 (s.LayoutModeIndex + d)) 4 (by norm_num)
  have hw2 : wrap32 (4 + (wrap32 (s.LayoutModeIndex + d)).tmod 4)
      = 4 + (wrap32 (s.LayoutModeIndex + d)).tmod 4 :=
    wrap32_of_range _ (by omega) (by omega)
  have ht : (4 + (wrap32 (s.LayoutModeIndex + d)).tmod 4).tmod 4
      = wrap32 (s.LayoutModeIndex + d) % 4 := by
    rw [Int.tmod_eq_emod (by omega) (by norm_num), b3]
  have hr0 : 0 ≤ wrap32 (s.LayoutModeIndex + d) % 4 := Int.emod_nonneg _ (by norm_num)
  have hr1 : wrap32 (s.LayoutModeIndex + d) % 4 < 4 := Int.emod_lt_of_pos _ (by norm_num)
  obtain ⟨m, hm, _⟩ := TArrayAt_some s.LayoutModes (wrap32 (s.LayoutModeIndex + d) % 4) hr0
    (by rw [hlen]; exact_mod_cast hr1)
  refine ⟨ChangeMode { s with LayoutModeIndex := wrap32 (s.LayoutModeIndex + d) % 4,
                              LastLayoutMode := s.CurrentLayoutMode } m, ?_, ?_⟩
  · simp only [ChangeModeInt, cppMod, hlen]
    norm_num
    simp only [hw2, ht]
    rw [if_pos ⟨hr0, hr1⟩, hm]
    rfl
  · obtain ⟨c1, c2, c3, _⟩ := ChangeMode_LayoutModes
      { s with LayoutModeIndex := wrap32 (s.LayoutModeIndex + d) % 4,
               LastLayoutMode := s.CurrentLayoutMode } m
    unfold ModeIndexAgrees
    rw [c1, c2, c3]
    exact ⟨rfl, hr0, Int.lt_add_one_iff.1 hr1, hm⟩

theorem ExecuteAction_agrees (E : LayoutModeNames) (s : Toolkit) (c : Command)
    (hmodes : s.LayoutModes = [E.Select, E.PaintSelect, E.Transform, E.Paint]) :
    ModeIndexAgrees (ExecuteAction E s c) := by
  obtain ⟨h1, h2, h3⟩ := ExecuteAction_mode_fields E s c
  unfold ModeIndexAgrees
  rw [h1, h2, h3, hmodes]
  cases c <;> rfl

theorem SwitchModes_agrees (E : LayoutModeNames) (ms : List ModeSwitch) :
    ∀ (s : Toolkit) (m : ModeSwitch),
      s.LayoutModes = [E.Select, E.PaintSelect, E.Transform, E.Paint] →
      ∃ s', SwitchModes E s (m :: ms) = some s' ∧ s'.LayoutModes = s.LayoutModes ∧
        ModeIndexAgrees s' := by
  induction ms with
  | nil =>
    intro s m hmodes
    cases m with
    | Execute c =>
      exact ⟨ExecuteAction E s c, rfl, (ExecuteAction_mode_fields E s c).1,
        ExecuteAction_agrees E s c hmodes⟩
    | Step d =>
      obtain ⟨s', h1, h2, _, _, h5⟩ := ChangeModeInt_agrees s d (by rw [hmodes]; rfl)
      exact ⟨s', by simp [SwitchModes, SwitchMode, h1], h2, h5⟩
  | cons m' ms ih =>
    intro s m hmodes
    cases m with
    | Execute c =>
      have hl := (ExecuteAction_mode_fields E s c).1
      obtain ⟨s', h1, h2, h3⟩ := ih (ExecuteAction E s c) m' (by rw [hl]; exact hmodes)
      exact ⟨s', by rw [← h1]; rfl, by rw [h2, hl], h3⟩
    | Step d =>
      obtain ⟨s1, g1, g2, _, _, _⟩ := ChangeModeInt_agrees s d (by rw [hmodes]; rfl)
      obtain ⟨s', h1, h2, h3⟩ := ih s1 m' (by rw [g2]; exact hmodes)
      refine ⟨s', ?_, by rw [h2, g2], h3⟩
      rw [← h1]
      simp [SwitchModes, SwitchMode, g1]

/-! ## The claims on mode switches and on the early return -/

/-- C21: `Init` fills `LayoutModes` with Select, PaintSelect, Transform, Paint;
with that list, every toolbar command writes the index 0, 1, 2 or 3 of its own
mode, every `ChangeMode(int)` call completes with an index in `0..3`, and after
either of them, and after any non-empty sequence of them,
`LayoutModes[LayoutModeIndex]` is `CurrentLayoutMode`. -/
theorem mode_index_agrees_after_switch (E : LayoutModeNames) (s : Toolkit)
    (hmodes : s.LayoutModes = [E.Select, E.PaintSelect, E.Transform, E.Paint]) :
    (∀ (fresh : FReferenceMesh) (members : Toolkit),
      (Init E fresh (Construct E members)).LayoutModes
        = [E.Select, E.PaintSelect, E.Transform, E.Paint]) ∧
    (∀ c : Command,
      (ExecuteAction E s c).LayoutModeIndex = c.index ∧
      (ExecuteAction E s c).CurrentLayoutMode = c.mode E ∧
      (ExecuteAction E s c).LayoutModes = s.LayoutModes ∧
      TArrayAt (ExecuteAction E s c).LayoutModes (ExecuteAction E s c).LayoutModeIndex
        = some (ExecuteAction E s c).CurrentLayoutMode) ∧
    (∀ d : ℤ, ∃ s', ChangeModeInt s d = some s' ∧ s'.LayoutModes = s.LayoutModes ∧
      0 ≤ s'.LayoutModeIndex ∧ s'.LayoutModeIndex ≤ 3 ∧
      TArrayAt s'.LayoutModes s'.LayoutModeIndex = some s'.CurrentLayoutMode) ∧
    (∀ ms : List ModeSwitch, ms ≠ [] →
      ∃ s', SwitchModes E s ms = some s' ∧
        TArrayAt s'.LayoutModes s'.LayoutModeIndex = some s'.CurrentLayoutMode) := by
  refine ⟨fun _ _ => rfl, ?_, ?_, ?_⟩
  · intro c
    obtain ⟨h1, h2, h3⟩ := ExecuteAction_mode_fields E s c
    exact ⟨h2, h3, h1, ExecuteAction_agrees E s c hmodes⟩
  · intro d
    exact ChangeModeInt_agrees s d (by rw [hmodes]; rfl)
  · intro ms hne
    cases ms with
    | nil => exact absurd rfl hne
    | cons m ms =>
      obtain ⟨s', h1, _, h3⟩ := SwitchModes_agrees E ms s m hmodes
      exact ⟨s', h1, h3⟩

/-- C21 (witness): Paint, one step forward and two steps back on the sample
toolkit end at index 2, the mode "Transform". -/
theorem mode_index_agrees_after_switch_witness :
    (SwitchModes sampleNames sampleToolkit
      [ModeSwitch.Execute Command.Paint, ModeSwitch.Step 1, ModeSwitch.Step (-2)]).map
        (fun t => (t.LayoutModeIndex, t.CurrentLayoutMode)) = some (2, "Transform") ∧
    ∃ s', SwitchModes sampleNames sampleToolkit
        [ModeSwitch.Execute Command.Paint, ModeSwitch.Step 1, ModeSwitch.Step (-2)] = some s' ∧
      TArrayAt s'.LayoutModes s'.LayoutModeIndex = some s'.CurrentLayoutMode :=
  ⟨by decide!,
   (mode_index_agrees_after_switch sampleNames sampleToolkit rfl).2.2.2 _ (by simp)⟩

/-- C22: with 'Use Selected' off and no listed entry that has both a valid
mesh asset and a percent at least the truncated roll, `SetRandomMesh` returns
the state it was given, so `PickedMesh`, `PositionRandom`, `RotateRandom` and
`ScaleRandom` keep their values. -/
theorem setRandomMesh_no_eligible_unchanged (s : Toolkit) (g : FRandomDraws)
    (hsel : s.bUseSelected = false)
    (hnone : ∀ p ∈ s.ReferenceMeshes,
      ¬ (IsValid (s.Objects p).StaticMesh = true ∧
          ((TruncToInt (FRandRange 0 100 g.Roll) : ℤ) : ℚ) ≤ (s.Objects p).Percent)) :
    SetRandomMesh s g = some s ∧
    ∀ s', SetRandomMesh s g = some s' →
      s'.PickedMesh = s.PickedMesh ∧ s'.PositionRandom = s.PositionRandom ∧
      s'.RotateRandom = s.RotateRandom ∧ s'.ScaleRandom = s.ScaleRandom := by
  have hempty : PickedMeshes s g = [] := by
    unfold PickedMeshes
    rw [List.filter_eq_nil_iff]
    intro p hp he
    exact hnone p hp ((Eligible_iff s _ p).1 he)
  have hres : SetRandomMesh s g = some s := by
    rw [SetRandomMesh_random s g hsel, if_pos (by rw [hempty]; rfl)]
  refine ⟨hres, ?_⟩
  intro s' h
  rw [hres] at h
  cases h
  exact ⟨rfl, rfl, rfl, rfl⟩

/-- C22 (witness): at roll 90 none of the sample percents 10, 5, 85 reaches the
truncated roll, and the call returns the sample toolkit. -/
theorem setRandomMesh_no_eligible_unchanged_witness :
    TruncToInt (FRandRange 0 100 (drawsAt (9 / 10)).Roll) = 90 ∧
    ∀ s', SetRandomMesh sampleToolkit (drawsAt (9 / 10)) = some s' →
      s'.PickedMesh = sampleToolkit.PickedMesh ∧
      s'.PositionRandom = sampleToolkit.PositionRandom ∧
      s'.RotateRandom = sampleToolkit.RotateRandom ∧
      s'.ScaleRandom = sampleToolkit.ScaleRandom := by
  have ht : TruncToInt (FRandRange 0 100 (drawsAt (9 / 10)).Roll) = 90 := by decide!
  refine ⟨ht, (setRandomMesh_no_eligible_unchanged sampleToolkit (drawsAt (9 / 10)) rfl ?_).2⟩
  intro p hp
  rw [ht]
  have hp' : p = 0 ∨ p = 1 ∨ p = 2 := by simpa [sampleToolkit] using hp
  rcases hp' with rfl | rfl | rfl <;> norm_num [sampleToolkit, sampleObjects]

end PhysicalLayout
